import Mathlib

/-!
Verification development for the TMJ-Analysis registration engine.

This file gives a shallow embedding, in Lean 4, of the parts of the
repository that the checked properties talk about:

* the Gauss-Newton / Levenberg-Marquardt optimizer
  (`GaussNewtonOptimizer.cpp`: `AdvanceOneStep`, `SolveNormalEquations`,
  `LineSearch`, `ClampUpdate`, `ComputeScaledUpdateMagnitude`);
* the MIND metric (`MINDMetric.cpp`: `ComputePatchDistances`,
  `ComputeMINDFeatures`, `ComputeMINDSSD`, `GetValue`, `GetResiduals`,
  `GetResidualsAndJacobian`, `Initialize`, `ResetCache`,
  `SampleFixedImageStratified`, `SampleFixedImageRandom`).

Modelling conventions:

* C++ `double`/`float` values are modelled as exact rationals (`ℚ`);
  the one transcendental comparison in the optimizer
  (`sqrt(Σ x²) < minimumStepLength`) is embedded by the decidable
  predicate `sqrtLt`, proved equivalent to the real-number comparison in
  lemma `sqrtLt_iff_real`.  The `exp` in the MIND descriptor is modelled
  with `Real.exp` on top of the rational patch-distance pipeline.
* Eigen's `LDLT` factorization is external library code; it is modelled
  by an oracle (`LDLTOracle`) reporting the observables the repository
  reads: `info() == Success`, `isPositive()`, the solution of
  `solve(-Jtf)`, and `allFinite()` of that solution.
* ITK images, interpolators and `std::mt19937` are likewise external;
  they are modelled by the record `MetricEnv` of abstract functions, and
  image pointers by identity tokens (`ℕ`), matching the pointer-identity
  comparisons the caching code performs.
* `std::vector<double>` is `List ℚ`; out-of-range reads, which the C++
  never performs on well-formed inputs, are modelled by `List.getD` with
  default `0`, and theorems carry the corresponding well-formedness
  hypotheses.
-/

namespace TMJ

/-! ## Part 1: the Gauss-Newton / Levenberg-Marquardt optimizer

Embedding of `GaussNewtonOptimizer::AdvanceOneStep` and its helpers.
Vectors and (row-major) matrices are lists of rationals. -/

abbrev Vec : Type := List ℚ

abbrev Mat : Type := List (List ℚ)

/-- The five stop conditions of the optimizer (`enum StopCondition`). -/
inductive GNStop : Type
  | maximumIterations
  | stepTooSmall
  | gradientTooSmall
  | converged
  | singularMatrix
  deriving DecidableEq, Repr

/-- The optimizer state fields read or written by `AdvanceOneStep`
(member variables of `GaussNewtonOptimizer`). -/
structure GNState : Type where
  numberOfParameters : ℕ
  scales : Vec
  maxParameterUpdate : Vec
  minimumStepLength : ℚ
  relaxationFactor : ℚ
  gradientMagnitudeTolerance : ℚ
  dampingFactor : ℚ
  useLevenbergMarquardt : Bool
  useLineSearch : Bool
  lineSearchMaxIterations : ℕ
  lineSearchShrinkFactor : ℚ
  currentValue : ℚ
  bestValue : ℚ
  currentStepLength : ℚ
  previousValue : ℚ
  previousParameters : Vec
  bestParameters : Vec
  stopCondition : GNStop
  deriving DecidableEq

/-- The callbacks the optimizer holds (`m_CostFunction`,
`m_ResidualFunction`, `m_JacobianFunction`, `m_GradientFunction`).  They
are deterministic functions of the externally stored parameter vector,
which is how the MIND metric implements them. -/
structure GNProblem : Type where
  cost : Vec → ℚ
  residual : Vec → List ℚ
  jacobian : Vec → List (List ℚ)
  gradient : Option (Vec → Vec)

/-- The observables of one Eigen `LDLT` factorization-and-solve that the
repository reads: `info() == Eigen::Success`, `isPositive()`, the vector
`solve(rhs)`, and whether that vector `allFinite()`. -/
structure LDLTOutcome : Type where
  success : Bool
  isPositive : Bool
  solution : Vec
  solutionFinite : Bool

/-- An oracle modelling Eigen's `LDLT` numerics: for a matrix and a
right-hand side it yields the factorization observables. -/
abbrev LDLTOracle : Type := Mat → Vec → LDLTOutcome

/-- Vector component access; the C++ code never reads out of range on
well-formed inputs. -/
def vget (v : Vec) (i : ℕ) : ℚ := v.getD i 0

/-- Matrix entry access (row-major). -/
def mget (M : Mat) (i j : ℕ) : ℚ := (M.getD i []).getD j 0

/-- Sum of `f i` for `i < m`. -/
def sumRange (m : ℕ) (f : ℕ → ℚ) : ℚ := ((List.range m).map f).sum

/-- The per-parameter scale: `(j < m_Scales.size()) ? m_Scales[j] : 1.0`. -/
def scaleAt (scales : Vec) (j : ℕ) : ℚ :=
  if j < scales.length then vget scales j else 1

/-- The scaled Jacobian built in `AdvanceOneStep` step 3:
`J(i,j) = jacobian[i][j] / scale_j`, an `m × n` matrix. -/
def scaledJ (jac : Mat) (scales : Vec) (m n : ℕ) : Mat :=
  (List.range m).map fun i =>
    (List.range n).map fun j => mget jac i j / scaleAt scales j

/-- `J^T J` (step 4), an `n × n` matrix. -/
def gramJtJ (J : Mat) (m n : ℕ) : Mat :=
  (List.range n).map fun a =>
    (List.range n).map fun b => sumRange m fun i => mget J i a * mget J i b

/-- `J^T f` (step 4), a length-`n` vector. -/
def gramJtf (J : Mat) (f : Vec) (m n : ℕ) : Vec :=
  (List.range n).map fun a => sumRange m fun i => mget J i a * vget f i

/-- Componentwise negation (the `-Jtf` right-hand side). -/
def negVec (v : Vec) : Vec := v.map fun x => -x

/-- Levenberg-Marquardt diagonal damping in `SolveNormalEquations`:
`A(i,i) += m_DampingFactor * (JtJ(i,i) + 1e-6)`. -/
def dampDiag (JtJ : Mat) (lam : ℚ) (n : ℕ) : Mat :=
  (List.range n).map fun i =>
    (List.range n).map fun j =>
      if i = j then mget JtJ i j + lam * (mget JtJ i i + 1e-6) else mget JtJ i j

/-- Uniform diagonal damping used by the retry in `SolveNormalEquations`:
`A2(i,i) += strongDamping`. -/
def addDiag (JtJ : Mat) (d : ℚ) (n : ℕ) : Mat :=
  (List.range n).map fun i =>
    (List.range n).map fun j =>
      if i = j then mget JtJ i j + d else mget JtJ i j

/-- Result of `SolveNormalEquations` together with whether the
stronger-damping retry was attempted (ghost information used to state
the failure-condition property). -/
structure SolveOutcome : Type where
  result : Option Vec
  retried : Bool

/-- Embedding of `GaussNewtonOptimizer::SolveNormalEquations`: build the
(LM-damped) matrix, factorize; on a successful factorization that is not
positive, rebuild from `JtJ` with uniform damping
`max(m_DampingFactor * 10, 1e-3)` and retry exactly once; finally check
the chosen solution for finiteness. -/
def solveNormalEquations (O : LDLTOracle) (useLM : Bool) (lam : ℚ)
    (JtJ : Mat) (Jtf : Vec) (n : ℕ) : SolveOutcome :=
  let A := if useLM then dampDiag JtJ lam n else JtJ
  let o1 := O A (negVec Jtf)
  if ¬ o1.success then ⟨none, false⟩
  else if ¬ o1.isPositive then
    let strongDamping := max (lam * 10) (1/1000)
    let A2 := addDiag JtJ strongDamping n
    let o2 := O A2 (negVec Jtf)
    if ¬ o2.success ∨ ¬ o2.isPositive then ⟨none, true⟩
    else if ¬ o2.solutionFinite then ⟨none, true⟩
    else ⟨some o2.solution, true⟩
  else if ¬ o1.solutionFinite then ⟨none, false⟩
  else ⟨some o1.solution, false⟩

/-- Embedding of `ClampUpdate`: clamp each component of the update to
`±m_MaxParameterUpdate[i]` when that bound exists. -/
def clampUpdate (update maxU : Vec) : Vec :=
  (List.range update.length).map fun i =>
    let u := vget update i
    if i < maxU.length then
      let m := vget maxU i
      if |u| > m then (if u > 0 then m else -m) else u
    else u

/-- The squared scaled update magnitude of
`ComputeScaledUpdateMagnitude` (the sum under the square root). -/
def scaledSqNorm (update scales : Vec) : ℚ :=
  sumRange update.length fun i =>
    (vget update i / scaleAt scales i) * (vget update i / scaleAt scales i)

/-- Decides the comparison `sqrt s < b` performed by `AdvanceOneStep`
step 8 on the nonnegative sum `s`; `sqrtLt_iff_real` below proves this
Boolean equal to the real-number comparison `Real.sqrt s < b`. -/
def sqrtLt (s b : ℚ) : Bool := decide (0 < b ∧ s < b * b)

/-- The tentative parameters `newParams[i] = currentParams[i] - α * update[i]`
(`AdvanceOneStep` step 10 and the trial points of `LineSearch`). -/
def stepParams (cur dir : Vec) (alpha : ℚ) (n : ℕ) : Vec :=
  (List.range n).map fun i => vget cur i - alpha * vget dir i

/-- The gradient vector used by `LineSearch`: the callback's value when
set, otherwise the zero vector it was initialized to. -/
def gradOf (P : GNProblem) (p : Vec) (n : ℕ) : Vec :=
  match P.gradient with
  | some g => g p
  | none => List.replicate n 0

/-- The inner product `dirGrad = Σ_i gradient[i] * direction[i]` of
`LineSearch`. -/
def dirGradOf (g dir : Vec) (n : ℕ) : ℚ :=
  sumRange n fun i => vget g i * vget dir i

/-- The backtracking loop of `LineSearch`: try `α`, accept when the
code's Armijo test `cost(q - α d) ≤ initialValue + c α dirGrad` holds
(with `c = 1e-4`), else shrink `α` by the shrink factor; at most
`m_LineSearchMaxIterations` trials, returning the last `α` if none is
accepted. -/
def lineSearchLoop (cost : Vec → ℚ) (cur dir : Vec) (n : ℕ)
    (initV dirGrad shrink : ℚ) : ℕ → ℚ → ℚ
  | 0, alpha => alpha
  | fuel + 1, alpha =>
      if cost (stepParams cur dir alpha n) ≤ initV + (1/10000) * alpha * dirGrad
      then alpha
      else lineSearchLoop cost cur dir n initV dirGrad shrink fuel (alpha * shrink)

/-- Embedding of `GaussNewtonOptimizer::LineSearch`.  The gradient is the
callback's value (or zero when absent); when `dirGrad ≥ 0` the code
returns the fixed factor `0.1`, otherwise it backtracks from `α = 1`.
The parameter store is restored before returning on every path, so the
function is pure. -/
def lineSearch (P : GNProblem) (n maxIter : ℕ) (shrink : ℚ)
    (cur dir : Vec) (initV : ℚ) : ℚ :=
  let g := gradOf P cur n
  let dirGrad := dirGradOf g dir n
  if dirGrad ≥ 0 then 1/10
  else lineSearchLoop P.cost cur dir n initV dirGrad shrink maxIter 1

/-- The final convergence test of `AdvanceOneStep` (step 12): stop with
`CONVERGED` when the relative improvement is below the tolerance and the
current value did not increase. -/
def convergenceCheck (st : GNState) : GNState :=
  let relImp := |st.previousValue - st.currentValue| /
      (|st.previousValue| + 1/10000000000)
  if relImp < st.gradientMagnitudeTolerance ∧ st.currentValue ≤ st.previousValue
  then { st with stopCondition := .converged } else st

/-- The scaled Jacobian of the step taken from problem state `(st, p)`
(`AdvanceOneStep` step 3). -/
def runJ (P : GNProblem) (st : GNState) (p : Vec) : Mat :=
  scaledJ (P.jacobian p) st.scales (P.residual p).length st.numberOfParameters

/-- The `J^T J` matrix of the step taken from problem state `(st, p)`. -/
def runJtJ (P : GNProblem) (st : GNState) (p : Vec) : Mat :=
  gramJtJ (runJ P st p) (P.residual p).length st.numberOfParameters

/-- The `J^T f` vector of the step taken from problem state `(st, p)`. -/
def runJtf (P : GNProblem) (st : GNState) (p : Vec) : Vec :=
  gramJtf (runJ P st p) (P.residual p) (P.residual p).length st.numberOfParameters

/-- The normal-equation solve performed by the step from `(st, p)`
(`AdvanceOneStep` step 5). -/
def runSolve (O : LDLTOracle) (P : GNProblem) (st : GNState) (p : Vec) :
    SolveOutcome :=
  solveNormalEquations O st.useLevenbergMarquardt st.dampingFactor
    (runJtJ P st p) (runJtf P st p) st.numberOfParameters

/-- The unscaled (step 6) and clamped (step 7) update vector computed
from the normal-equation solution `u`. -/
def runUpdate (st : GNState) (u : Vec) : Vec :=
  clampUpdate
    ((List.range st.numberOfParameters).map fun i => vget u i / scaleAt st.scales i)
    st.maxParameterUpdate

/-- The step factor of step 9: the line-search result when enabled, else
the initial `1.0`. -/
def runStepFactor (P : GNProblem) (st : GNState) (p : Vec) (upd : Vec) : ℚ :=
  if st.useLineSearch then
    lineSearch P st.numberOfParameters st.lineSearchMaxIterations
      st.lineSearchShrinkFactor p upd st.currentValue
  else 1

/-- The matrix handed to the first factorization of the step from
`(st, p)`: `JtJ`, LM-damped when enabled. -/
def runA1 (P : GNProblem) (st : GNState) (p : Vec) : Mat :=
  if st.useLevenbergMarquardt then
    dampDiag (runJtJ P st p) st.dampingFactor st.numberOfParameters
  else runJtJ P st p

/-- The right-hand side `-Jtf` of the step from `(st, p)`. -/
def runRhs (P : GNProblem) (st : GNState) (p : Vec) : Vec :=
  negVec (runJtf P st p)

/-- The matrix handed to the retry factorization of the step from
`(st, p)`: `JtJ` with the uniform damping `max(10 λ, 1e-3)`. -/
def runA2 (P : GNProblem) (st : GNState) (p : Vec) : Mat :=
  addDiag (runJtJ P st p) (max (st.dampingFactor * 10) (1/1000))
    st.numberOfParameters

/-- The observables of the first factorization of the step from `(st, p)`. -/
def runO1 (O : LDLTOracle) (P : GNProblem) (st : GNState) (p : Vec) : LDLTOutcome :=
  O (runA1 P st p) (runRhs P st p)

/-- The observables of the retry factorization of the step from `(st, p)`. -/
def runO2 (O : LDLTOracle) (P : GNProblem) (st : GNState) (p : Vec) : LDLTOutcome :=
  O (runA2 P st p) (runRhs P st p)

/-- The state written by the accept branch (step 10 of `AdvanceOneStep`):
record the previous parameters and value, take the new value and step
factor, update the best pair on improvement, and halve the LM damping
with floor `1e-10`. -/
def acceptState (st : GNState) (p newParams : Vec) (newValue stepFactor : ℚ) :
    GNState :=
  { st with
    previousParameters := p
    previousValue := st.currentValue
    currentValue := newValue
    currentStepLength := stepFactor
    bestValue := if newValue < st.bestValue then newValue else st.bestValue
    bestParameters := if newValue < st.bestValue then newParams else st.bestParameters
    dampingFactor := if st.useLevenbergMarquardt then
        max (st.dampingFactor * (1/2)) (1/10000000000)
      else st.dampingFactor }

/-- The state written by the reject branch (step 11 of `AdvanceOneStep`):
record the previous parameters and value, restore the current value,
relax the step factor, double the LM damping with ceiling `1e6`, and set
`STEP_TOO_SMALL` when the relaxed step factor drops below the minimum. -/
def rejectState (st : GNState) (p : Vec) : GNState :=
  { st with
    previousParameters := p
    previousValue := st.currentValue
    currentStepLength := st.currentStepLength * st.relaxationFactor
    dampingFactor := if st.useLevenbergMarquardt then
        min (st.dampingFactor * 2) 1000000
      else st.dampingFactor
    stopCondition := if st.currentStepLength * st.relaxationFactor < st.minimumStepLength
      then .stepTooSmall else st.stopCondition }

/-- Embedding of `GaussNewtonOptimizer::AdvanceOneStep` acting on the
optimizer state and the externally stored parameter vector `p` (accessed
through `m_GetParameters` / `m_SetParameters`).  The numbered steps of
the source are the helper definitions above; the parameter vector is
returned restored (`p`) on every rejecting or aborting path, and set to
the tentative parameters on the accepting path. -/
def advanceOneStep (O : LDLTOracle) (P : GNProblem) (st : GNState) (p : Vec) :
    GNState × Vec :=
  let st0 := { st with previousParameters := p
                       previousValue := st.currentValue }
  if (P.residual p).isEmpty then ({ st0 with stopCondition := .singularMatrix }, p)
  else if (P.jacobian p).isEmpty ∨ ((P.jacobian p).headD []).length ≠ st0.numberOfParameters then
    ({ st0 with stopCondition := .singularMatrix }, p)
  else
    match (runSolve O P st0 p).result with
    | none => ({ st0 with stopCondition := .singularMatrix }, p)
    | some u =>
      let update := runUpdate st0 u
      if sqrtLt (scaledSqNorm update st0.scales) st0.minimumStepLength then
        ({ st0 with stopCondition := .stepTooSmall }, p)
      else
        let stepFactor := runStepFactor P st0 p update
        let newParams := stepParams p update stepFactor st0.numberOfParameters
        if P.cost newParams < st0.currentValue then
          (convergenceCheck (acceptState st p newParams (P.cost newParams) stepFactor),
            newParams)
        else
          (convergenceCheck (rejectState st p), p)

/-! ## Part 2: the MIND descriptor pipeline

Embedding of `MINDMetric::ComputePatchDistances` and
`MINDMetric::ComputeMINDFeatures` on a dense rational 3D volume.  The
patch-distance pipeline (shift, subtract, square, mean filter) is exact
rational arithmetic; the descriptor layer applies `Real.exp`. -/

/-- The two neighborhood options (`enum class NeighborhoodType`). -/
inductive NbhdType : Type
  | sixConnected
  | twentySixConnected
  deriving DecidableEq, Repr

/-- Embedding of `InitializeNeighborhoodOffsets`: the face-connected
offsets in the source's order, or the 26 offsets of the 3x3x3 cube
without its center, pushed with `dz` outermost and `dx` innermost. -/
def neighborhoodOffsetsOf : NbhdType → List (ℤ × ℤ × ℤ)
  | .sixConnected =>
      [(1, 0, 0), (-1, 0, 0), (0, 1, 0), (0, -1, 0), (0, 0, 1), (0, 0, -1)]
  | .twentySixConnected =>
      ([-1, 0, 1] : List ℤ).flatMap fun dz =>
        ([-1, 0, 1] : List ℤ).flatMap fun dy =>
          ([-1, 0, 1] : List ℤ).filterMap fun dx =>
            if dx ≠ 0 ∨ dy ≠ 0 ∨ dz ≠ 0 then some (dx, dy, dz) else none

/-- A dense 3D volume of (float-valued) voxels with its size; voxel data
is a total function, read only at in-range indices by the code. -/
structure VolumeQ : Type where
  nx : ℕ
  ny : ℕ
  nz : ℕ
  data : ℤ → ℤ → ℤ → ℚ

/-- Whether an index triple lies inside the volume buffer. -/
def VolumeQ.inBounds (v : VolumeQ) (i j k : ℤ) : Bool :=
  decide (0 ≤ i ∧ i < v.nx ∧ 0 ≤ j ∧ j < v.ny ∧ 0 ≤ k ∧ k < v.nz)

/-- Embedding of `ShiftImage`: the resample by the translation
`-offset * spacing` makes output voxel `(i,j,k)` equal input voxel
`(i,j,k) - offset` (exact at integer offsets), with the default pixel
value `0` outside the input buffer. -/
def shiftImage (v : VolumeQ) (off : ℤ × ℤ × ℤ) : ℤ → ℤ → ℤ → ℚ :=
  fun i j k =>
    if v.inBounds (i - off.1) (j - off.2.1) (k - off.2.2)
    then v.data (i - off.1) (j - off.2.1) (k - off.2.2) else 0

/-- Index clamping of itk's zero-flux-Neumann boundary condition used by
`itk::MeanImageFilter` (out-of-bounds neighbors replicate the nearest
edge voxel). -/
def clampTo (n : ℕ) (i : ℤ) : ℤ := max 0 (min i ((n : ℤ) - 1))

/-- The offsets `-r, …, r` of one axis of the mean-filter window. -/
def cubeRange (r : ℕ) : List ℤ := (List.range (2 * r + 1)).map fun a => (a : ℤ) - r

/-- Embedding of `ApplyMeanFilter`: the mean of the `(2r+1)³` window
around each voxel, boundary handled by edge replication. -/
def meanFilter (v : VolumeQ) (img : ℤ → ℤ → ℤ → ℚ) (r : ℕ) : ℤ → ℤ → ℤ → ℚ :=
  fun i j k =>
    ((cubeRange r).map fun di =>
        ((cubeRange r).map fun dj =>
            ((cubeRange r).map fun dk =>
                img (clampTo v.nx (i + di)) (clampTo v.ny (j + dj))
                  (clampTo v.nz (k + dk))).sum).sum).sum
      / ((2 * (r : ℚ) + 1) ^ 3)

/-- Embedding of one channel of `ComputePatchDistances`:
`Dp = meanFilter((I - shift(I, off))²)`. -/
def dpImage (v : VolumeQ) (r : ℕ) (off : ℤ × ℤ × ℤ) : ℤ → ℤ → ℤ → ℚ :=
  meanFilter v
    (fun i j k =>
      (v.data i j k - shiftImage v off i j k) *
        (v.data i j k - shiftImage v off i j k))
    r

/-- Embedding of step 2 of `ComputeMINDFeatures`:
`V(x) = (Σ_k Dp_k(x)) / K + 1e-10`. -/
def varianceImage (v : VolumeQ) (r : ℕ) (offs : List (ℤ × ℤ × ℤ)) :
    ℤ → ℤ → ℤ → ℚ :=
  fun i j k =>
    (offs.map fun o => dpImage v r o i j k).sum / (offs.length : ℚ) + 1/10000000000

/-- Embedding of step 3 of `ComputeMINDFeatures`:
the unnormalized channel `exp(-Dp / V)`. -/
noncomputable def mindRaw (v : VolumeQ) (r : ℕ) (offs : List (ℤ × ℤ × ℤ))
    (off : ℤ × ℤ × ℤ) (i j k : ℤ) : ℝ :=
  Real.exp (-((dpImage v r off i j k : ℝ)) / (varianceImage v r offs i j k : ℝ))

/-- The per-voxel channel maximum of step 4 of `ComputeMINDFeatures`
(`maxVal` accumulated from `0.0f` over all channels). -/
noncomputable def maxMindRaw (v : VolumeQ) (r : ℕ) (offs : List (ℤ × ℤ × ℤ))
    (i j k : ℤ) : ℝ :=
  (offs.map fun o => mindRaw v r offs o i j k).foldl max 0

/-- The normalized MIND channel written back by step 4:
`exp(-Dp/V) / (maxVal + 1e-10)`. -/
noncomputable def mindNormalized (v : VolumeQ) (r : ℕ) (offs : List (ℤ × ℤ × ℤ))
    (off : ℤ × ℤ × ℤ) (i j k : ℤ) : ℝ :=
  mindRaw v r offs off i j k / (maxMindRaw v r offs i j k + 1e-10)

/-- The per-voxel maximum over the normalized channels (the quantity the
descriptor-normalization property bounds). -/
noncomputable def maxMindNormalized (v : VolumeQ) (r : ℕ)
    (offs : List (ℤ × ℤ × ℤ)) (i j k : ℤ) : ℝ :=
  (offs.map fun o => mindNormalized v r offs o i j k).foldl max 0

/-! ## Part 3: the MIND metric object

Embedding of the `MINDMetric` class state and of `Initialize`,
`ResetCache`, the two sampling strategies, `ComputeMINDSSD` / `GetValue`,
`GetResiduals` and `GetResidualsAndJacobian`.  External collaborators
(ITK image objects and interpolators, `std::mt19937`) are abstracted by
the environment record `MetricEnv`; image pointers are identity tokens,
matching the pointer comparisons of the caching code. -/

/-- An image pointer (identity token). -/
abbrev ImgId : Type := ℕ

/-- A voxel index `(x, y, z)`. -/
abbrev VoxIdx : Type := ℕ × ℕ × ℕ

/-- A physical point. -/
abbrev PhysPt : Type := ℚ × ℚ × ℚ

/-- A linear interpolator over one stored channel image:
`IsInsideBuffer` and `Evaluate`. -/
structure Interp : Type where
  inside : PhysPt → Bool
  eval : PhysPt → ℚ

/-- The fallback interpolator for an out-of-range channel access (never
used on well-formed states). -/
def defaultInterp : Interp := ⟨fun _ => false, fun _ => 0⟩

/-- One sample record (`struct SamplePoint`). -/
structure SampleP : Type where
  fixedPoint : PhysPt
  fixedIndex : VoxIdx
  fixedMINDValues : List ℚ
  deriving DecidableEq

/-- The external collaborators of the metric: image geometry lookups,
the MIND feature computation producing stored channel images, the
interpolator factories, and the random generator operations
(`std::uniform_int_distribution` draws, `mt19937::seed`,
`std::random_device`), over an abstract generator-state type `G`. -/
structure MetricEnv (G : Type) : Type where
  imageSize : ImgId → ℕ × ℕ × ℕ
  imagePhys : ImgId → VoxIdx → PhysPt
  computeFeatures : ImgId → ℕ → List (ℤ × ℤ × ℤ) → List (VoxIdx → ℚ)
  mkInterp : (VoxIdx → ℚ) → Interp
  mkGradInterps : List (VoxIdx → ℚ) → List (Interp × Interp × Interp)
  uniformInt : ℕ → ℕ → G → ℕ × G
  seedGen : ℕ → G
  randomDeviceGen : G

/-- The `MINDMetric` member variables read or written by the embedded
operations. -/
structure MState (G : Type) : Type where
  fixedImage : Option ImgId
  movingImage : Option ImgId
  transformSet : Bool
  transform : PhysPt → PhysPt
  jacobianFn : Option (PhysPt → List (ℚ × ℚ × ℚ))
  numberOfParameters : ℕ
  mindRadius : ℕ
  mindSigma : ℚ
  neighborhoodType : NbhdType
  neighborhoodOffsets : List (ℤ × ℤ × ℤ)
  samplingPercentage : ℚ
  randomSeed : ℕ
  useFixedSeed : Bool
  useStratifiedSampling : Bool
  fixedImageMask : Option (PhysPt → Bool)
  samplePoints : List SampleP
  numberOfValidSamples : ℕ
  currentValue : ℚ
  fixedMINDFeatures : List (VoxIdx → ℚ)
  movingMINDFeatures : List (VoxIdx → ℚ)
  movingMINDInterpolators : List Interp
  movingGradInterpolators : List (Interp × Interp × Interp)
  cachedFixedImage : Option ImgId
  cachedMovingImage : Option ImgId
  fixedMINDFeaturesValid : Bool
  movingMINDFeaturesValid : Bool
  randomGenerator : G

/-- Embedding of `SetFixedImage`: stores the pointer and clears the
fixed-feature cache flag. -/
def setFixedImage {G : Type} (img : ImgId) (st : MState G) : MState G :=
  { st with fixedImage := some img, fixedMINDFeaturesValid := false }

/-- Embedding of `SetMovingImage`: stores the pointer and clears the
moving-feature cache flag. -/
def setMovingImage {G : Type} (img : ImgId) (st : MState G) : MState G :=
  { st with movingImage := some img, movingMINDFeaturesValid := false }

/-- Embedding of `SetMINDRadius`: stores the radius only (no cache flag
is touched). -/
def setMINDRadius {G : Type} (r : ℕ) (st : MState G) : MState G :=
  { st with mindRadius := r }

/-- Embedding of `SetMINDSigma`: stores the sigma only. -/
def setMINDSigma {G : Type} (sigma : ℚ) (st : MState G) : MState G :=
  { st with mindSigma := sigma }

/-- Embedding of `SetRandomSeed`: stores the seed and switches to the
fixed-seed mode. -/
def setRandomSeed {G : Type} (s : ℕ) (st : MState G) : MState G :=
  { st with randomSeed := s, useFixedSeed := true }

/-- Embedding of `ResetCache`: clears both cached pointers and both
valid flags. -/
def resetCache {G : Type} (st : MState G) : MState G :=
  { st with cachedFixedImage := none, cachedMovingImage := none,
            fixedMINDFeaturesValid := false, movingMINDFeaturesValid := false }

/-- Embedding of `target_samples` in both samplers:
`static_cast<unsigned long>(totalVoxels * m_SamplingPercentage)`, i.e.
truncation of the product (its floor, the product being nonnegative). -/
def targetSamplesOf (totalVoxels : ℕ) (pct : ℚ) : ℕ :=
  (⌊(totalVoxels : ℚ) * pct⌋).toNat

/-- The target count as the spec words it: `round(samplingPercentage *
total_voxels)` (rounding, not truncation); for comparison with
`targetSamplesOf`. -/
def targetSamplesSpec (totalVoxels : ℕ) (pct : ℚ) : ℕ :=
  (round ((totalVoxels : ℚ) * pct)).toNat

/-- The smallest `s` with `a / t ≤ s³` (for `t > 0`): the rounded-up real
cube root `⌈∛(a / t)⌉` used by the spec's step formula; for comparison
with `cbrtFloorDiv`. -/
def cbrtCeilDiv (a t : ℕ) : ℕ :=
  (((List.range (a + 2)).filter fun s => decide (a ≤ s ^ 3 * t)).headD (a + 1))

/-- The stratified lattice step as the spec words it:
`max(1, ⌈∛(total/target)⌉)`. -/
def stratStepSpec (total target : ℕ) : ℕ := max 1 (cbrtCeilDiv total target)

/-- The largest `s` with `s³ ≤ a / t` (for `t > 0`): the value of
`static_cast<unsigned int>(std::cbrt(double(a) / t))`, i.e. the
truncated real cube root of the sample-interval ratio. -/
def cbrtFloorDiv (a t : ℕ) : ℕ :=
  ((List.range (a + 1)).filter fun s => s ^ 3 * t ≤ a).foldl max 0

/-- The stratified lattice step `max(1u, (unsigned)cbrt(total/target))`. -/
def stratStep (total target : ℕ) : ℕ := max 1 (cbrtFloorDiv total target)

/-- The index values visited by one axis loop
`for (v = pad; v < size - pad; v += step)` in ascending order (with the
truncated natural subtraction agreeing with the unsigned one whenever
`pad ≤ size`). -/
def latticeAxis (size pad step : ℕ) : List ℕ :=
  (List.range size).filter fun v =>
    decide (pad ≤ v ∧ v < size - pad ∧ (v - pad) % step = 0)

/-- Construction of one sample record from a fixed-image index: the
physical point, the index, and the fixed MIND channel values at it. -/
def mkSample {G : Type} (E : MetricEnv G) (st : MState G) (f : ImgId)
    (c : VoxIdx) : SampleP :=
  { fixedPoint := E.imagePhys f c
    fixedIndex := c
    fixedMINDValues := st.fixedMINDFeatures.map fun ch => ch c }

/-- The candidate loop of `SampleFixedImageStratified`: stop as soon as
the target count is reached (the `goto sampling_complete`), skip
candidates outside the mask when one is set, and append a sample record
otherwise. -/
def collectStrat {G : Type} (E : MetricEnv G) (st : MState G) (f : ImgId)
    (target : ℕ) : List VoxIdx → List SampleP → List SampleP
  | [], acc => acc
  | c :: rest, acc =>
      if target ≤ acc.length then acc
      else
        match st.fixedImageMask with
        | some mask =>
            if ¬ mask (E.imagePhys f c) then collectStrat E st f target rest acc
            else collectStrat E st f target rest (acc ++ [mkSample E st f c])
        | none => collectStrat E st f target rest (acc ++ [mkSample E st f c])

/-- Embedding of `SampleFixedImageStratified`. -/
def sampleStratified {G : Type} (E : MetricEnv G) (st : MState G) (f : ImgId) :
    List SampleP :=
  let sz := E.imageSize f
  let totalVoxels := sz.1 * sz.2.1 * sz.2.2
  let targetSamples := targetSamplesOf totalVoxels st.samplingPercentage
  let step := stratStep totalVoxels targetSamples
  let padding := st.mindRadius + 1
  let cands := (latticeAxis sz.2.2 padding step).flatMap fun z =>
      (latticeAxis sz.2.1 padding step).flatMap fun y =>
        (latticeAxis sz.1 padding step).map fun x => (x, y, z)
  collectStrat E st f targetSamples cands []

/-- The attempt loop of `SampleFixedImageRandom`: while fewer than
`target` samples are collected and attempts remain, draw one index per
axis from the uniform distributions on `[pad, size - pad - 1]`, apply
the mask, and append a sample record. -/
def sampleRandomLoop {G : Type} (E : MetricEnv G) (st : MState G) (f : ImgId)
    (target padding sx sy sz : ℕ) :
    ℕ → G → List SampleP → List SampleP × G
  | 0, g, acc => (acc, g)
  | fuel + 1, g, acc =>
      if target ≤ acc.length then (acc, g)
      else
        let rx := E.uniformInt padding (sx - padding - 1) g
        let ry := E.uniformInt padding (sy - padding - 1) rx.2
        let rz := E.uniformInt padding (sz - padding - 1) ry.2
        let c : VoxIdx := (rx.1, ry.1, rz.1)
        match st.fixedImageMask with
        | some mask =>
            if ¬ mask (E.imagePhys f c) then
              sampleRandomLoop E st f target padding sx sy sz fuel rz.2 acc
            else
              sampleRandomLoop E st f target padding sx sy sz fuel rz.2
                (acc ++ [mkSample E st f c])
        | none =>
            sampleRandomLoop E st f target padding sx sy sz fuel rz.2
              (acc ++ [mkSample E st f c])

/-- Embedding of `SampleFixedImageRandom` (at most `3 * target`
attempts), returning the samples and the advanced generator state. -/
def sampleRandom {G : Type} (E : MetricEnv G) (st : MState G) (f : ImgId) :
    List SampleP × G :=
  let sz := E.imageSize f
  let totalVoxels := sz.1 * sz.2.1 * sz.2.2
  let targetSamples := targetSamplesOf totalVoxels st.samplingPercentage
  let padding := st.mindRadius + 1
  sampleRandomLoop E st f targetSamples padding sz.1 sz.2.1 sz.2.2
    (targetSamples * 3) st.randomGenerator []

/-- Embedding of `SampleFixedImage`: dispatch on the sampling strategy. -/
def sampleFixedImage {G : Type} (E : MetricEnv G) (st : MState G) (f : ImgId) :
    MState G :=
  if st.useStratifiedSampling then
    { st with samplePoints := sampleStratified E st f }
  else
    let r := sampleRandom E st f
    { st with samplePoints := r.1, randomGenerator := r.2 }

/-- The `InitializeNeighborhoodOffsets()` call at the top of
`Initialize`: refresh the offset list from the neighborhood type. -/
def initOffsets {G : Type} (st : MState G) : MState G :=
  { st with neighborhoodOffsets := neighborhoodOffsetsOf st.neighborhoodType }

/-- The fixed-image caching block of `Initialize`: recompute the fixed
MIND features when the cached pointer differs (`fixedImageChanged`) or
the valid flag is clear, then record the pointer and set the flag. -/
def initFixedCache {G : Type} (E : MetricEnv G) (st : MState G) (fi : ImgId) :
    MState G :=
  if st.cachedFixedImage ≠ some fi ∨ ¬ st.fixedMINDFeaturesValid then
    { st with
      fixedMINDFeatures := E.computeFeatures fi st.mindRadius st.neighborhoodOffsets
      cachedFixedImage := some fi
      fixedMINDFeaturesValid := true }
  else st

/-- The moving-image caching block of `Initialize`: recompute the moving
MIND features, their gradients and the interpolators when the cached
pointer differs or the valid flag is clear, then record the pointer and
set the flag. -/
def initMovingCache {G : Type} (E : MetricEnv G) (st : MState G) (mi : ImgId) :
    MState G :=
  if st.cachedMovingImage ≠ some mi ∨ ¬ st.movingMINDFeaturesValid then
    { st with
      movingMINDFeatures := E.computeFeatures mi st.mindRadius st.neighborhoodOffsets
      movingGradInterpolators :=
        E.mkGradInterps (E.computeFeatures mi st.mindRadius st.neighborhoodOffsets)
      movingMINDInterpolators :=
        (E.computeFeatures mi st.mindRadius st.neighborhoodOffsets).map E.mkInterp
      cachedMovingImage := some mi
      movingMINDFeaturesValid := true }
  else st

/-- The final seeding block of `Initialize`: seed the generator with the
configured seed, or from `std::random_device` when no fixed seed is in
use. -/
def initSeed {G : Type} (E : MetricEnv G) (st : MState G) : MState G :=
  if st.useFixedSeed then { st with randomGenerator := E.seedGen st.randomSeed }
  else { st with randomGenerator := E.randomDeviceGen }

/-- Embedding of `MINDMetric::Initialize`: fail (`throw`) when an image
or the transform is unset; refresh the neighborhood offsets; run the two
caching blocks; sample the fixed image; finally seed the random
generator.  The seeding comes after the sampling, as in the source. -/
def initializeMetric {G : Type} (E : MetricEnv G) (st : MState G) :
    Option (MState G) :=
  match st.fixedImage, st.movingImage with
  | some fi, some mi =>
      if ¬ st.transformSet then none
      else
        some (initSeed E (sampleFixedImage E
          (initMovingCache E (initFixedCache E (initOffsets st) fi) mi) fi))
  | _, _ => none

/-- The moving MIND interpolator for a channel. -/
def interpAt {G : Type} (st : MState G) (ch : ℕ) : Interp :=
  st.movingMINDInterpolators.getD ch defaultInterp

/-- The gradient interpolator triple for a channel. -/
def gradInterpAt {G : Type} (st : MState G) (ch : ℕ) :
    Interp × Interp × Interp :=
  st.movingGradInterpolators.getD ch (defaultInterp, defaultInterp, defaultInterp)

/-- The validity test of `ComputeMINDSSD` / `GetResiduals`: the
transformed point lies inside every channel's interpolation buffer. -/
def allChannelsValidAt {G : Type} (st : MState G) (tp : PhysPt) (K : ℕ) : Bool :=
  (List.range K).all fun ch => (interpAt st ch).inside tp

/-- The per-sample squared-difference sum over channels in
`ComputeMINDSSD`. -/
def sampleSSDAt {G : Type} (st : MState G) (s : SampleP) (tp : PhysPt)
    (K : ℕ) : ℚ :=
  sumRange K fun ch =>
    (s.fixedMINDValues.getD ch 0 - (interpAt st ch).eval tp) *
      (s.fixedMINDValues.getD ch 0 - (interpAt st ch).eval tp)

/-- One sample's contribution in the `ComputeMINDSSD` loop: when the
transformed point is inside every channel's buffer, add the sample's
squared-difference sum and count it as valid; otherwise skip it. -/
def ssdStep {G : Type} (st : MState G) (K : ℕ) (a : ℚ × ℕ) (s : SampleP) : ℚ × ℕ :=
  let tp := st.transform s.fixedPoint
  if allChannelsValidAt st tp K then (a.1 + sampleSSDAt st s tp K, a.2 + 1)
  else a

/-- Embedding of `ComputeMINDSSD`: accumulate squared differences over
the valid samples, count them, and normalize by
`validCount * numChannels` (returning `0.0` when no sample is valid).
Returns the metric value and the recorded `m_NumberOfValidSamples`. -/
def computeMINDSSD {G : Type} (st : MState G) : ℚ × ℕ :=
  let K := st.movingMINDFeatures.length
  let acc := st.samplePoints.foldl (ssdStep st K) (0, 0)
  (if 0 < acc.2 then acc.1 / ((acc.2 : ℚ) * (K : ℚ)) else 0, acc.2)

/-- Embedding of `GetValue`: computes the SSD and stores the value and
the valid-sample count in the state. -/
def getValue {G : Type} (st : MState G) : ℚ × MState G :=
  let r := computeMINDSSD st
  (r.1, { st with currentValue := r.1, numberOfValidSamples := r.2 })

/-- Embedding of `GetResiduals`: for each valid sample append the `K`
channel residuals `fixed - moving`; returns them with the recorded
valid-sample count. -/
def getResiduals {G : Type} (st : MState G) : List ℚ × ℕ :=
  let K := st.movingMINDFeatures.length
  st.samplePoints.foldl
    (fun (a : List ℚ × ℕ) s =>
      let tp := st.transform s.fixedPoint
      if allChannelsValidAt st tp K then
        (a.1 ++ (List.range K).map
            (fun ch => s.fixedMINDValues.getD ch 0 - (interpAt st ch).eval tp),
          a.2 + 1)
      else a)
    ([], 0)

/-- The validity test of `GetResidualsAndJacobian`: the transformed
point lies inside the value interpolator and all three gradient
interpolators of every channel. -/
def allValidRJ {G : Type} (st : MState G) (tp : PhysPt) (K : ℕ) : Bool :=
  (List.range K).all fun ch =>
    (interpAt st ch).inside tp &&
      ((gradInterpAt st ch).1.inside tp &&
        ((gradInterpAt st ch).2.1.inside tp && (gradInterpAt st ch).2.2.inside tp))

/-- The Jacobian rows of one valid sample in `GetResidualsAndJacobian`:
for each channel, row `p` is `-(∇MIND · ∂T/∂q_p)`. -/
def jacobianRowsFor {G : Type} (st : MState G)
    (jf : PhysPt → List (ℚ × ℚ × ℚ)) (s : SampleP) (tp : PhysPt) (K : ℕ) :
    List (List ℚ) :=
  let tj := jf s.fixedPoint
  (List.range K).map fun ch =>
    let gi := gradInterpAt st ch
    (List.range st.numberOfParameters).map fun p =>
      let tjp := tj.getD p (0, 0, 0);
      -(gi.1.eval tp * tjp.1 + (gi.2.1.eval tp * tjp.2.1 + gi.2.2.eval tp * tjp.2.2))

/-- Embedding of `GetResidualsAndJacobian`: fails (`throw`) when no
Jacobian callback is set; otherwise appends, per valid sample, the `K`
channel residuals and the `K` Jacobian rows, counting valid samples. -/
def getResidualsAndJacobian {G : Type} (st : MState G) :
    Option (List ℚ × List (List ℚ) × ℕ) :=
  match st.jacobianFn with
  | none => none
  | some jf =>
      let K := st.movingMINDFeatures.length
      some (st.samplePoints.foldl
        (fun (a : List ℚ × List (List ℚ) × ℕ) s =>
          let tp := st.transform s.fixedPoint
          if allValidRJ st tp K then
            (a.1 ++ (List.range K).map
                (fun ch => s.fixedMINDValues.getD ch 0 - (interpAt st ch).eval tp),
              a.2.1 ++ jacobianRowsFor st jf s tp K, a.2.2 + 1)
          else a)
        ([], [], 0))

/-- State-level wrapper for `ComputePatchDistances`, reading the radius
and offsets from the metric state (as the member function does). -/
def computePatchDistancesS {G : Type} (st : MState G) (v : VolumeQ) :
    List (ℤ → ℤ → ℤ → ℚ) :=
  st.neighborhoodOffsets.map fun off => dpImage v st.mindRadius off

/-- State-level wrapper for `ComputeMINDFeatures`, reading the radius
and offsets from the metric state. -/
noncomputable def computeMINDFeaturesS {G : Type} (st : MState G) (v : VolumeQ) :
    List (ℤ → ℤ → ℤ → ℝ) :=
  st.neighborhoodOffsets.map fun off => mindNormalized v st.mindRadius st.neighborhoodOffsets off

/-! ## Concrete evaluation fixtures

Small closed instances used to evaluate the embedded code on explicit
inputs (for the counterexamples and the witnesses). -/

/-- A well-behaved factorization oracle for 1x1 identity systems:
reports success and positivity and returns the right-hand side as the
solution (which solves `A u = rhs` for `A = [[1]]`). -/
def exOracleOk : LDLTOracle := fun _ rhs => ⟨true, true, rhs, true⟩

/-- A factorization oracle whose first factorization reports a
numerical issue (`info() != Success`). -/
def exOracleFail : LDLTOracle := fun _ rhs => ⟨false, true, rhs, true⟩

/-- A one-parameter problem whose cost is the first parameter, with
residual `[1]` and Jacobian `[[1]]`: the Gauss-Newton trial point is
`q = [1]` with cost `1`, strictly above the entry cost `0`, so the step
is rejected. -/
def exProblem : GNProblem :=
  { cost := fun q => vget q 0
    residual := fun _ => [1]
    jacobian := fun _ => [[1]]
    gradient := none }

/-- Entry optimizer state for the concrete runs: one parameter, unit
scale, LM damping and line search disabled, tolerance `1e-8`. -/
def exState : GNState :=
  { numberOfParameters := 1
    scales := [1]
    maxParameterUpdate := [1000]
    minimumStepLength := 1/1000000
    relaxationFactor := 1/2
    gradientMagnitudeTolerance := 1/100000000
    dampingFactor := 1/1000
    useLevenbergMarquardt := false
    useLineSearch := false
    lineSearchMaxIterations := 10
    lineSearchShrinkFactor := 1/2
    currentValue := 0
    bestValue := 0
    currentStepLength := 1
    previousValue := 0
    previousParameters := [0]
    bestParameters := [0]
    stopCondition := .maximumIterations }

/-- The entry state with the step factor already at the minimum step
length, so that one relaxation pushes it below the threshold. -/
def exStateSmallStep : GNState := { exState with currentStepLength := 1/1000000 }

/-- A problem for the line search: constant zero cost and a constant
gradient callback `[-1]`, so the code's inner product with the direction
`[1]` is `-1`, while the inner product with the negated direction is
`+1`. -/
def exLSProblem : GNProblem :=
  { cost := fun _ => 0
    residual := fun _ => [1]
    jacobian := fun _ => [[1]]
    gradient := some fun _ => [-1] }

/-- A metric state with one channel and one sample whose (identity-)
transformed point lies outside the single channel interpolator's
buffer, so no sample is valid. -/
def exMetric : MState ℕ :=
  { fixedImage := some 1
    movingImage := some 2
    transformSet := true
    transform := fun pt => pt
    jacobianFn := none
    numberOfParameters := 6
    mindRadius := 1
    mindSigma := 4/5
    neighborhoodType := .sixConnected
    neighborhoodOffsets := neighborhoodOffsetsOf .sixConnected
    samplingPercentage := 3/20
    randomSeed := 121212
    useFixedSeed := true
    useStratifiedSampling := true
    fixedImageMask := none
    samplePoints := [{ fixedPoint := (0, 0, 0), fixedIndex := (0, 0, 0),
                       fixedMINDValues := [1] }]
    numberOfValidSamples := 0
    currentValue := 0
    fixedMINDFeatures := [fun _ => 1]
    movingMINDFeatures := [fun _ => 0]
    movingMINDInterpolators := [⟨fun _ => false, fun _ => 0⟩]
    movingGradInterpolators := []
    cachedFixedImage := none
    cachedMovingImage := none
    fixedMINDFeaturesValid := false
    movingMINDFeaturesValid := false
    randomGenerator := 0 }

/-- An environment whose feature computation records the radius it was
invoked with (each channel image is constantly the radius), making cache
staleness observable. -/
def exEnvC8 : MetricEnv Unit :=
  { imageSize := fun _ => (0, 0, 0)
    imagePhys := fun _ _ => (0, 0, 0)
    computeFeatures := fun _ r _ => [fun _ => (r : ℚ)]
    mkInterp := fun _ => ⟨fun _ => true, fun _ => 0⟩
    mkGradInterps := fun _ => []
    uniformInt := fun lo _ g => (lo, g)
    seedGen := fun _ => ()
    randomDeviceGen := () }

/-- A fresh metric state bound to images `7` and `8` with radius `1` and
empty caches. -/
def exMetricC8 : MState Unit :=
  { fixedImage := some 7
    movingImage := some 8
    transformSet := true
    transform := fun pt => pt
    jacobianFn := none
    numberOfParameters := 6
    mindRadius := 1
    mindSigma := 4/5
    neighborhoodType := .sixConnected
    neighborhoodOffsets := neighborhoodOffsetsOf .sixConnected
    samplingPercentage := 3/20
    randomSeed := 121212
    useFixedSeed := true
    useStratifiedSampling := true
    fixedImageMask := none
    samplePoints := []
    numberOfValidSamples := 0
    currentValue := 0
    fixedMINDFeatures := []
    movingMINDFeatures := []
    movingMINDInterpolators := []
    movingGradInterpolators := []
    cachedFixedImage := none
    cachedMovingImage := none
    fixedMINDFeaturesValid := false
    movingMINDFeaturesValid := false
    randomGenerator := () }

/-- The fresh state switched to random (non-stratified) sampling. -/
def exMetricC10 : MState Unit :=
  { exMetricC8 with useStratifiedSampling := false }

/-! ## Helper lemmas -/

/-- The Boolean `sqrtLt` decides exactly the real comparison
`sqrt s < b` that `AdvanceOneStep` performs on the scaled update
magnitude. -/
theorem sqrtLt_iff_real (s b : ℚ) :
    sqrtLt s b = true ↔ Real.sqrt (s : ℝ) < (b : ℝ) := by
  unfold sqrtLt
  rw [decide_eq_true_eq]
  constructor
  · rintro ⟨hb, hs⟩
    have hb' : (0 : ℝ) < (b : ℝ) := by exact_mod_cast hb
    rw [Real.sqrt_lt' hb']
    have hs' : (s : ℝ) < (b : ℝ) * (b : ℝ) := by exact_mod_cast hs
    nlinarith [hs']
  · intro h
    have hb' : (0 : ℝ) < (b : ℝ) := lt_of_le_of_lt (Real.sqrt_nonneg _) h
    have hs' := (Real.sqrt_lt' hb').mp h
    refine ⟨by exact_mod_cast hb', ?_⟩
    have : (s : ℝ) < (b : ℝ) * (b : ℝ) := by nlinarith [hs']
    exact_mod_cast this

/-- Entry access into a square matrix built from an entry function. -/
theorem mget_build (f : ℕ → ℕ → ℚ) (n i j : ℕ) (hi : i < n) (hj : j < n) :
    mget ((List.range n).map fun a => (List.range n).map fun b => f a b) i j
      = f i j := by
  simp [mget, List.getD_eq_getElem?_getD, List.getElem?_map, List.getElem?_range, hi, hj]

/-- `convergenceCheck` only ever rewrites the stop condition. -/
theorem convergenceCheck_eq (st : GNState) :
    convergenceCheck st =
      { st with stopCondition :=
          if |st.previousValue - st.currentValue| / (|st.previousValue| + 1/10000000000)
                < st.gradientMagnitudeTolerance
              ∧ st.currentValue ≤ st.previousValue
          then .converged else st.stopCondition } := by
  simp only [convergenceCheck]
  split_ifs <;> rfl

/-- Recording the previous parameters and value does not affect the
normal-equation solve. -/
theorem runSolve_irrel (O : LDLTOracle) (P : GNProblem) (st : GNState)
    (p q : Vec) (v : ℚ) :
    runSolve O P { st with previousParameters := q, previousValue := v } p
      = runSolve O P st p := rfl

/-- Recording the previous parameters and value does not affect the
update vector. -/
theorem runUpdate_irrel (st : GNState) (u q : Vec) (v : ℚ) :
    runUpdate { st with previousParameters := q, previousValue := v } u
      = runUpdate st u := rfl

/-- Recording the previous parameters and value does not affect the
step factor. -/
theorem runStepFactor_irrel (P : GNProblem) (st : GNState) (p upd q : Vec)
    (v : ℚ) :
    runStepFactor P { st with previousParameters := q, previousValue := v } p upd
      = runStepFactor P st p upd := rfl

/-- Reduction of `advanceOneStep` on a step that reaches the
accept/reject decision (nonempty residuals, well-formed Jacobian,
successful solve, update magnitude not below the minimum) and rejects:
the tentative cost did not strictly decrease. -/
theorem advanceOneStep_reject_eq (O : LDLTOracle) (P : GNProblem) (st : GNState)
    (p u : Vec)
    (hres : (P.residual p).isEmpty = false)
    (hjac1 : (P.jacobian p).isEmpty = false)
    (hjac2 : ((P.jacobian p).headD []).length = st.numberOfParameters)
    (hu : (runSolve O P st p).result = some u)
    (hmag : sqrtLt (scaledSqNorm (runUpdate st u) st.scales) st.minimumStepLength = false)
    (hrej : ¬ P.cost (stepParams p (runUpdate st u)
        (runStepFactor P st p (runUpdate st u)) st.numberOfParameters)
        < st.currentValue) :
    advanceOneStep O P st p = (convergenceCheck (rejectState st p), p) := by
  simp only [advanceOneStep, runSolve_irrel, runUpdate_irrel, runStepFactor_irrel,
    hres, hjac1, hjac2, hu, hmag, Bool.false_eq_true, if_false, ne_eq,
    not_true_eq_false, or_self, if_neg hrej]

/-- Reduction of `advanceOneStep` on a step that reaches the
accept/reject decision and accepts: the tentative cost strictly
decreased. -/
theorem advanceOneStep_accept_eq (O : LDLTOracle) (P : GNProblem) (st : GNState)
    (p u : Vec)
    (hres : (P.residual p).isEmpty = false)
    (hjac1 : (P.jacobian p).isEmpty = false)
    (hjac2 : ((P.jacobian p).headD []).length = st.numberOfParameters)
    (hu : (runSolve O P st p).result = some u)
    (hmag : sqrtLt (scaledSqNorm (runUpdate st u) st.scales) st.minimumStepLength = false)
    (hacc : P.cost (stepParams p (runUpdate st u)
        (runStepFactor P st p (runUpdate st u)) st.numberOfParameters)
        < st.currentValue) :
    advanceOneStep O P st p =
      (convergenceCheck (acceptState st p
          (stepParams p (runUpdate st u) (runStepFactor P st p (runUpdate st u))
            st.numberOfParameters)
          (P.cost (stepParams p (runUpdate st u)
            (runStepFactor P st p (runUpdate st u)) st.numberOfParameters))
          (runStepFactor P st p (runUpdate st u))),
        stepParams p (runUpdate st u) (runStepFactor P st p (runUpdate st u))
          st.numberOfParameters) := by
  simp only [advanceOneStep, runSolve_irrel, runUpdate_irrel, runStepFactor_irrel,
    hres, hjac1, hjac2, hu, hmag, Bool.false_eq_true, if_false, ne_eq,
    not_true_eq_false, or_self, if_pos hacc]

/-- Reduction of `advanceOneStep` when the residual vector is empty. -/
theorem advanceOneStep_of_resEmpty (O : LDLTOracle) (P : GNProblem)
    (st : GNState) (p : Vec) (h : (P.residual p).isEmpty = true) :
    advanceOneStep O P st p
      = ({ st with previousParameters := p
                   previousValue := st.currentValue
                   stopCondition := .singularMatrix }, p) := by
  simp [advanceOneStep, h]

/-- Reduction of `advanceOneStep` when the Jacobian is empty or has the
wrong column count. -/
theorem advanceOneStep_of_jacBad (O : LDLTOracle) (P : GNProblem)
    (st : GNState) (p : Vec) (h1 : (P.residual p).isEmpty = false)
    (h2 : (P.jacobian p).isEmpty = true
      ∨ ((P.jacobian p).headD []).length ≠ st.numberOfParameters) :
    advanceOneStep O P st p
      = ({ st with previousParameters := p
                   previousValue := st.currentValue
                   stopCondition := .singularMatrix }, p) := by
  simp only [advanceOneStep, h1, Bool.false_eq_true, if_false]
  rw [if_pos]
  exact h2

/-- Reduction of `advanceOneStep` when the normal-equation solve fails. -/
theorem advanceOneStep_of_solveNone (O : LDLTOracle) (P : GNProblem)
    (st : GNState) (p : Vec) (h1 : (P.residual p).isEmpty = false)
    (hjac1 : (P.jacobian p).isEmpty = false)
    (hjac2 : ((P.jacobian p).headD []).length = st.numberOfParameters)
    (hnone : (runSolve O P st p).result = none) :
    advanceOneStep O P st p
      = ({ st with previousParameters := p
                   previousValue := st.currentValue
                   stopCondition := .singularMatrix }, p) := by
  simp only [advanceOneStep, runSolve_irrel, h1, hjac1, hjac2, hnone,
    Bool.false_eq_true, if_false, ne_eq, not_true_eq_false, or_self]

/-- Reduction of `advanceOneStep` when the scaled update magnitude is
below the minimum step length. -/
theorem advanceOneStep_of_magSmall (O : LDLTOracle) (P : GNProblem)
    (st : GNState) (p u : Vec) (h1 : (P.residual p).isEmpty = false)
    (hjac1 : (P.jacobian p).isEmpty = false)
    (hjac2 : ((P.jacobian p).headD []).length = st.numberOfParameters)
    (hu : (runSolve O P st p).result = some u)
    (hmag : sqrtLt (scaledSqNorm (runUpdate st u) st.scales) st.minimumStepLength = true) :
    advanceOneStep O P st p
      = ({ st with previousParameters := p
                   previousValue := st.currentValue
                   stopCondition := .stepTooSmall }, p) := by
  simp only [advanceOneStep, runSolve_irrel, runUpdate_irrel, h1, hjac1, hjac2,
    hu, hmag, Bool.false_eq_true, if_false, ne_eq, not_true_eq_false, or_self,
    if_true]

/-- The concrete run has a nonempty residual vector. -/
theorem exRun_residual_nonempty : (exProblem.residual [0]).isEmpty = false := rfl

/-- The concrete run has a nonempty Jacobian. -/
theorem exRun_jacobian_nonempty : (exProblem.jacobian [0]).isEmpty = false := rfl

/-- The concrete run's Jacobian has the expected column count. -/
theorem exRun_jacobian_cols :
    ((exProblem.jacobian [0]).headD []).length = exState.numberOfParameters := rfl

/-- The `J^T f` vector of the concrete run. -/
theorem exRun_Jtf : runJtf exProblem exState [0] = [1] := by
  norm_num [runJtf, runJ, gramJtf, scaledJ, sumRange, mget, vget, scaleAt,
    exProblem, exState, show List.range 1 = [0] from rfl]

/-- The normal-equation solve of the concrete run returns `u = [-1]`. -/
theorem exRun_solve : (runSolve exOracleOk exProblem exState [0]).result = some [-1] := by
  rw [runSolve, exRun_Jtf]
  norm_num [solveNormalEquations, exOracleOk, exState, negVec]

/-- The clamped unscaled update of the concrete run. -/
theorem exRun_update : runUpdate exState [-1] = [-1] := by
  norm_num [runUpdate, clampUpdate, vget, scaleAt, exState,
    show List.range 1 = [0] from rfl]

/-- The update magnitude of the concrete run is not below the minimum
step length. -/
theorem exRun_mag :
    sqrtLt (scaledSqNorm (runUpdate exState [-1]) exState.scales)
      exState.minimumStepLength = false := by
  rw [exRun_update]
  norm_num [sqrtLt, scaledSqNorm, vget, scaleAt, exState, sumRange,
    decide_eq_false_iff_not, show List.range 1 = [0] from rfl]

/-- Line search is disabled in the concrete run, so the step factor is
the initial `1`. -/
theorem exRun_stepFactor :
    runStepFactor exProblem exState [0] (runUpdate exState [-1]) = 1 := rfl

/-- The concrete run rejects its step: the tentative cost `1` is not
below the entry cost `0`. -/
theorem exRun_reject :
    ¬ exProblem.cost (stepParams [0] (runUpdate exState [-1])
        (runStepFactor exProblem exState [0] (runUpdate exState [-1]))
        exState.numberOfParameters) < exState.currentValue := by
  rw [exRun_stepFactor, exRun_update]
  norm_num [stepParams, vget, exProblem, exState,
    show List.range 1 = [0] from rfl]

/-! ## Claim C1 -/

/-- Claim C1, amended: on a Gauss-Newton step that reaches the
accept/reject decision, the stop condition becomes `Converged` exactly
when the relative improvement
`|φ_prev − φ| / (|φ_prev| + 1e-10)` is below
`gradient_magnitude_tolerance` — irrespective of whether the step was
accepted, because the accompanying test `φ ≤ φ_prev` also holds after a
rejected step (whose improvement is zero). -/
theorem claim1_converged_iff (O : LDLTOracle) (P : GNProblem) (st : GNState)
    (p u : Vec)
    (hstop : st.stopCondition ≠ .converged)
    (hres : (P.residual p).isEmpty = false)
    (hjac1 : (P.jacobian p).isEmpty = false)
    (hjac2 : ((P.jacobian p).headD []).length = st.numberOfParameters)
    (hu : (runSolve O P st p).result = some u)
    (hmag : sqrtLt (scaledSqNorm (runUpdate st u) st.scales) st.minimumStepLength = false) :
    ((advanceOneStep O P st p).1.stopCondition = .converged) ↔
      |st.currentValue - (advanceOneStep O P st p).1.currentValue| /
          (|st.currentValue| + 1/10000000000) < st.gradientMagnitudeTolerance := by
  by_cases hacc : P.cost (stepParams p (runUpdate st u)
      (runStepFactor P st p (runUpdate st u)) st.numberOfParameters) < st.currentValue
  · rw [advanceOneStep_accept_eq O P st p u hres hjac1 hjac2 hu hmag hacc]
    rw [convergenceCheck_eq]
    simp only [acceptState]
    split_ifs with h
    · simp only [h.1, iff_true]
    · simp only [hstop, false_iff]
      intro hc
      exact h ⟨hc, hacc.le⟩
  · rw [advanceOneStep_reject_eq O P st p u hres hjac1 hjac2 hu hmag hacc]
    rw [convergenceCheck_eq]
    simp only [rejectState]
    simp only [sub_self, abs_zero, zero_div, le_refl, and_true]
    split_ifs with h h2
    · simp only [h, iff_true]
    · simp only [reduceCtorEq, false_iff, not_lt]
      exact le_of_not_lt h
    · simp only [hstop, false_iff, not_lt]
      exact le_of_not_lt h

/-- Counterexample to claim C1 as stated: a concrete rejected step (the
parameter vector is restored to `[0]` and the cost is unchanged at `0`,
the tentative cost `1` not being lower) after which the stop condition
is nevertheless `Converged`. -/
theorem claim1_counterexample :
    ¬ exProblem.cost [1] < exState.currentValue ∧
    (advanceOneStep exOracleOk exProblem exState [0]).2 = [0] ∧
    (advanceOneStep exOracleOk exProblem exState [0]).1.currentValue = 0 ∧
    (advanceOneStep exOracleOk exProblem exState [0]).1.stopCondition = .converged := by
  rw [advanceOneStep_reject_eq exOracleOk exProblem exState [0] [-1]
    exRun_residual_nonempty exRun_jacobian_nonempty exRun_jacobian_cols
    exRun_solve exRun_mag exRun_reject]
  rw [convergenceCheck_eq]
  refine ⟨?_, rfl, ?_, ?_⟩
  · norm_num [exProblem, exState, vget]
  · rfl
  · simp only [rejectState, exState]
    norm_num

/-- Witness for `claim1_converged_iff`: its hypotheses hold, and its
conclusion is obtained, at the concrete run of `claim1_counterexample`. -/
theorem claim1_witness :
    (exState.stopCondition ≠ .converged) ∧
    ((exProblem.residual [0]).isEmpty = false) ∧
    ((exProblem.jacobian [0]).isEmpty = false) ∧
    (((exProblem.jacobian [0]).headD []).length = exState.numberOfParameters) ∧
    ((runSolve exOracleOk exProblem exState [0]).result = some [-1]) ∧
    (sqrtLt (scaledSqNorm (runUpdate exState [-1]) exState.scales)
        exState.minimumStepLength = false) ∧
    (((advanceOneStep exOracleOk exProblem exState [0]).1.stopCondition = .converged) ↔
      |exState.currentValue -
            (advanceOneStep exOracleOk exProblem exState [0]).1.currentValue| /
          (|exState.currentValue| + 1/10000000000)
        < exState.gradientMagnitudeTolerance) :=
  ⟨by decide, exRun_residual_nonempty, exRun_jacobian_nonempty, exRun_jacobian_cols,
    exRun_solve, exRun_mag,
    claim1_converged_iff exOracleOk exProblem exState [0] [-1] (by decide)
      exRun_residual_nonempty exRun_jacobian_nonempty exRun_jacobian_cols
      exRun_solve exRun_mag⟩

/-! ## Claim C2 -/

/-- Claim C2, amended: a rejected Gauss-Newton step restores the
parameter vector exactly and keeps the current cost, multiplies the step
factor by the relaxation factor, and with LM enabled doubles the damping
with ceiling `1e6`; but the final stop condition is `Converged` whenever
the tolerance is positive (the convergence check runs after the reject
branch and a rejected step has zero relative improvement), and only with
a nonpositive tolerance does a step factor fallen below
`minimum_step_length` leave the stop condition at `StepTooSmall`. -/
theorem claim2_reject_spec (O : LDLTOracle) (P : GNProblem) (st : GNState)
    (p u : Vec)
    (hres : (P.residual p).isEmpty = false)
    (hjac1 : (P.jacobian p).isEmpty = false)
    (hjac2 : ((P.jacobian p).headD []).length = st.numberOfParameters)
    (hu : (runSolve O P st p).result = some u)
    (hmag : sqrtLt (scaledSqNorm (runUpdate st u) st.scales) st.minimumStepLength = false)
    (hrej : ¬ P.cost (stepParams p (runUpdate st u)
        (runStepFactor P st p (runUpdate st u)) st.numberOfParameters)
        < st.currentValue) :
    (advanceOneStep O P st p).2 = p ∧
    (advanceOneStep O P st p).1.currentValue = st.currentValue ∧
    (advanceOneStep O P st p).1.currentStepLength
      = st.currentStepLength * st.relaxationFactor ∧
    (advanceOneStep O P st p).1.dampingFactor
      = (if st.useLevenbergMarquardt then min (st.dampingFactor * 2) 1000000
         else st.dampingFactor) ∧
    (advanceOneStep O P st p).1.stopCondition
      = (if 0 < st.gradientMagnitudeTolerance then .converged
         else if st.currentStepLength * st.relaxationFactor < st.minimumStepLength
         then .stepTooSmall else st.stopCondition) := by
  rw [advanceOneStep_reject_eq O P st p u hres hjac1 hjac2 hu hmag hrej]
  rw [convergenceCheck_eq]
  refine ⟨rfl, rfl, rfl, rfl, ?_⟩
  simp only [rejectState]
  simp only [sub_self, abs_zero, zero_div, le_refl, and_true]

/-- Counterexample to claim C2 as stated: a concrete rejected step whose
relaxed step factor falls below `minimum_step_length`, yet the final
stop condition is `Converged` rather than `StepTooSmall` (the
convergence check overwrites it, the tolerance `1e-8` being positive). -/
theorem claim2_counterexample :
    exStateSmallStep.currentStepLength * exStateSmallStep.relaxationFactor
      < exStateSmallStep.minimumStepLength ∧
    ¬ exProblem.cost [1] < exStateSmallStep.currentValue ∧
    (advanceOneStep exOracleOk exProblem exStateSmallStep [0]).2 = [0] ∧
    (advanceOneStep exOracleOk exProblem exStateSmallStep [0]).1.stopCondition
      = .converged ∧
    (advanceOneStep exOracleOk exProblem exStateSmallStep [0]).1.stopCondition
      ≠ .stepTooSmall := by
  have hu' : (runSolve exOracleOk exProblem exStateSmallStep [0]).result
      = some [-1] := exRun_solve
  have hjac2' : ((exProblem.jacobian [0]).headD []).length
      = exStateSmallStep.numberOfParameters := exRun_jacobian_cols
  have hmag' : sqrtLt (scaledSqNorm (runUpdate exStateSmallStep [-1])
      exStateSmallStep.scales) exStateSmallStep.minimumStepLength = false := exRun_mag
  have hrej' : ¬ exProblem.cost (stepParams [0] (runUpdate exStateSmallStep [-1])
      (runStepFactor exProblem exStateSmallStep [0] (runUpdate exStateSmallStep [-1]))
      exStateSmallStep.numberOfParameters) < exStateSmallStep.currentValue :=
    exRun_reject
  rw [advanceOneStep_reject_eq exOracleOk exProblem exStateSmallStep [0] [-1]
    exRun_residual_nonempty exRun_jacobian_nonempty hjac2' hu' hmag' hrej']
  rw [convergenceCheck_eq]
  refine ⟨by norm_num [exStateSmallStep, exState], ?_, rfl, ?_, ?_⟩
  · norm_num [exProblem, exStateSmallStep, exState, vget]
  · simp only [rejectState, exStateSmallStep, exState]
    norm_num
  · simp only [rejectState, exStateSmallStep, exState]
    norm_num
    decide

/-- Witness for `claim2_reject_spec`: its hypotheses hold, and its
conclusion is obtained, at the concrete run of `claim2_counterexample`. -/
theorem claim2_witness :
    ((exProblem.residual [0]).isEmpty = false) ∧
    ((exProblem.jacobian [0]).isEmpty = false) ∧
    (((exProblem.jacobian [0]).headD []).length = exStateSmallStep.numberOfParameters) ∧
    ((runSolve exOracleOk exProblem exStateSmallStep [0]).result = some [-1]) ∧
    (sqrtLt (scaledSqNorm (runUpdate exStateSmallStep [-1]) exStateSmallStep.scales)
        exStateSmallStep.minimumStepLength = false) ∧
    ((advanceOneStep exOracleOk exProblem exStateSmallStep [0]).2 = [0] ∧
      (advanceOneStep exOracleOk exProblem exStateSmallStep [0]).1.currentValue
        = exStateSmallStep.currentValue ∧
      (advanceOneStep exOracleOk exProblem exStateSmallStep [0]).1.currentStepLength
        = exStateSmallStep.currentStepLength * exStateSmallStep.relaxationFactor ∧
      (advanceOneStep exOracleOk exProblem exStateSmallStep [0]).1.dampingFactor
        = (if exStateSmallStep.useLevenbergMarquardt
           then min (exStateSmallStep.dampingFactor * 2) 1000000
           else exStateSmallStep.dampingFactor) ∧
      (advanceOneStep exOracleOk exProblem exStateSmallStep [0]).1.stopCondition
        = (if 0 < exStateSmallStep.gradientMagnitudeTolerance then .converged
           else if exStateSmallStep.currentStepLength * exStateSmallStep.relaxationFactor
               < exStateSmallStep.minimumStepLength
           then .stepTooSmall else exStateSmallStep.stopCondition)) :=
  ⟨exRun_residual_nonempty, exRun_jacobian_nonempty, exRun_jacobian_cols,
    exRun_solve, exRun_mag,
    claim2_reject_spec exOracleOk exProblem exStateSmallStep [0] [-1]
      exRun_residual_nonempty exRun_jacobian_nonempty exRun_jacobian_cols
      exRun_solve exRun_mag exRun_reject⟩

/-! ## Claim C3 -/

/-- One-step unfolding of the backtracking loop. -/
theorem lineSearchLoop_succ (cost : Vec → ℚ) (cur dir : Vec) (n : ℕ)
    (initV dirGrad shrink : ℚ) (fuel : ℕ) (alpha : ℚ) :
    lineSearchLoop cost cur dir n initV dirGrad shrink (fuel + 1) alpha =
      if cost (stepParams cur dir alpha n) ≤ initV + (1/10000) * alpha * dirGrad
      then alpha
      else lineSearchLoop cost cur dir n initV dirGrad shrink fuel (alpha * shrink) :=
  rfl

/-- The backtracking loop tries `α = shrink^t, shrink^(t+1), …`: it
returns the first power accepted by the code's Armijo test, or the power
after the last trial when no trial is accepted. -/
theorem lineSearchLoop_pow (cost : Vec → ℚ) (cur dir : Vec) (n : ℕ)
    (initV dirGrad shrink : ℚ) :
    ∀ (fuel t : ℕ), ∃ j, j ≤ fuel ∧
      lineSearchLoop cost cur dir n initV dirGrad shrink fuel (shrink ^ t)
        = shrink ^ (t + j) ∧
      (∀ k, k < j → ¬ cost (stepParams cur dir (shrink ^ (t + k)) n)
          ≤ initV + (1/10000) * shrink ^ (t + k) * dirGrad) ∧
      (j < fuel → cost (stepParams cur dir (shrink ^ (t + j)) n)
          ≤ initV + (1/10000) * shrink ^ (t + j) * dirGrad) := by
  intro fuel
  induction fuel with
  | zero =>
      intro t
      exact ⟨0, le_refl 0, by simp [lineSearchLoop],
        fun k hk => absurd hk (Nat.not_lt_zero k),
        fun h => absurd h (Nat.not_lt_zero 0)⟩
  | succ fuel ih =>
      intro t
      by_cases hA : cost (stepParams cur dir (shrink ^ t) n)
          ≤ initV + (1/10000) * shrink ^ t * dirGrad
      · refine ⟨0, Nat.zero_le _, ?_, fun k hk => absurd hk (Nat.not_lt_zero k), ?_⟩
        · rw [lineSearchLoop_succ, if_pos hA, Nat.add_zero]
        · intro _
          simpa using hA
      · obtain ⟨j, hj, heq, hk, hacc⟩ := ih (t + 1)
        refine ⟨j + 1, by omega, ?_, ?_, ?_⟩
        · rw [lineSearchLoop_succ, if_neg hA, ← pow_succ, heq]
          congr 1
          omega
        · intro k hkj
          cases k with
          | zero => simpa using hA
          | succ k' =>
              have := hk k' (by omega)
              have harith : t + 1 + k' = t + (k' + 1) := by omega
              rwa [harith] at this
        · intro hlt
          have := hacc (by omega)
          have harith : t + 1 + j = t + (j + 1) := by omega
          rwa [harith] at this

/-- Claim C3, amended: the Armijo test and the descent test of
`LineSearch` both use the inner product of the gradient with the
update direction itself (`g·update`), not with its negation; the
gradient is the callback's value, or the zero vector when no gradient
callback is set.  When `g·update ≥ 0` the search returns `0.1`;
otherwise, starting from `α = 1` and shrinking at most
`line_search_max_iterations` times, it returns the first `α = shrink^j`
with `cost(q - α·update) ≤ cost(q) + 1e-4·α·(g·update)`, or the final
shrunk `α` when no trial passes. -/
theorem claim3_lineSearch_spec (P : GNProblem) (n maxIter : ℕ) (shrink : ℚ)
    (cur dir : Vec) (initV : ℚ) :
    (0 ≤ dirGradOf (gradOf P cur n) dir n →
      lineSearch P n maxIter shrink cur dir initV = 1/10) ∧
    (dirGradOf (gradOf P cur n) dir n < 0 →
      ∃ j, j ≤ maxIter ∧
        lineSearch P n maxIter shrink cur dir initV = shrink ^ j ∧
        (∀ k, k < j → ¬ P.cost (stepParams cur dir (shrink ^ k) n)
            ≤ initV + (1/10000) * shrink ^ k * dirGradOf (gradOf P cur n) dir n) ∧
        (j < maxIter → P.cost (stepParams cur dir (shrink ^ j) n)
            ≤ initV + (1/10000) * shrink ^ j * dirGradOf (gradOf P cur n) dir n)) := by
  constructor
  · intro h
    simp only [lineSearch]
    rw [if_pos (by exact h)]
  · intro h
    simp only [lineSearch]
    rw [if_neg (not_le.mpr h)]
    obtain ⟨j, hj, heq, hk, hacc⟩ := lineSearchLoop_pow P.cost cur dir n initV
      (dirGradOf (gradOf P cur n) dir n) shrink maxIter 0
    rw [pow_zero] at heq
    refine ⟨j, hj, by simpa using heq, ?_, by simpa using hacc⟩
    intro k hkj
    simpa using hk k hkj

/-- `runSolve` expressed through the two factorizations' observables. -/
theorem runSolve_eq (O : LDLTOracle) (P : GNProblem) (st : GNState) (p : Vec) :
    runSolve O P st p =
      (if ¬ (runO1 O P st p).success then ⟨none, false⟩
       else if ¬ (runO1 O P st p).isPositive then
         (if ¬ (runO2 O P st p).success ∨ ¬ (runO2 O P st p).isPositive then
            ⟨none, true⟩
          else if ¬ (runO2 O P st p).solutionFinite then ⟨none, true⟩
          else ⟨some (runO2 O P st p).solution, true⟩)
       else if ¬ (runO1 O P st p).solutionFinite then ⟨none, false⟩
       else ⟨some (runO1 O P st p).solution, false⟩) := rfl

/-- The outcomes of `SolveNormalEquations`: the stronger-damping retry
runs exactly when the first factorization succeeds but reports
non-positive, and the solve fails exactly when the first factorization
fails outright (no retry occurs then), or the retry was needed and still
fails or is non-positive, or the selected solution is non-finite. -/
theorem runSolve_spec (O : LDLTOracle) (P : GNProblem) (st : GNState) (p : Vec) :
    ((runSolve O P st p).retried = true ↔
      ((runO1 O P st p).success = true ∧ (runO1 O P st p).isPositive = false)) ∧
    ((runSolve O P st p).result = none ↔
      ((runO1 O P st p).success = false ∨
       ((runO1 O P st p).success = true ∧ (runO1 O P st p).isPositive = false ∧
         ¬((runO2 O P st p).success = true ∧ (runO2 O P st p).isPositive = true)) ∨
       ((runO1 O P st p).success = true ∧ (runO1 O P st p).isPositive = true ∧
         (runO1 O P st p).solutionFinite = false) ∨
       ((runO1 O P st p).success = true ∧ (runO1 O P st p).isPositive = false ∧
         (runO2 O P st p).success = true ∧ (runO2 O P st p).isPositive = true ∧
         (runO2 O P st p).solutionFinite = false))) := by
  rw [runSolve_eq]
  rcases ho1 : runO1 O P st p with ⟨s1, p1, u1, f1⟩
  rcases ho2 : runO2 O P st p with ⟨s2, p2, u2, f2⟩
  cases s1 <;> cases p1 <;> cases f1 <;> cases s2 <;> cases p2 <;> cases f2 <;>
    simp

/-- Counterexample to claim C3 as stated: at this concrete input the
claim's quantity `g·(-update)` equals `1 ≥ 0`, so the claim predicts the
fixed factor `0.1`; the code computes `g·update = -1 < 0`, backtracks
twice (constant cost never passing its Armijo test with negative
`dirGrad`), and returns `0.25`. -/
theorem claim3_counterexample :
    0 ≤ dirGradOf (gradOf exLSProblem [0] 1) (negVec [1]) 1 ∧
    lineSearch exLSProblem 1 2 (1/2) [0] [1] 0 = 1/4 ∧
    (1/4 : ℚ) ≠ 1/10 := by
  refine ⟨?_, ?_, by norm_num⟩
  · norm_num [dirGradOf, gradOf, negVec, sumRange, vget, exLSProblem,
      show List.range 1 = [0] from rfl]
  · norm_num [lineSearch, lineSearchLoop, dirGradOf, gradOf, sumRange, vget,
      exLSProblem, stepParams, show List.range 1 = [0] from rfl]

/-- Witness for `claim3_lineSearch_spec`: with no gradient callback the
gradient is the zero vector, the inner product is `0 ≥ 0`, and the
search returns `0.1`. -/
theorem claim3_witness :
    (0 ≤ dirGradOf (gradOf exProblem [0] 1) [1] 1) ∧
    lineSearch exProblem 1 2 (1/2) [0] [1] 0 = 1/10 :=
  ⟨by norm_num [dirGradOf, gradOf, sumRange, vget, exProblem,
      show List.range 1 = [0] from rfl],
    (claim3_lineSearch_spec exProblem 1 2 (1/2) [0] [1] 0).1
      (by norm_num [dirGradOf, gradOf, sumRange, vget, exProblem,
        show List.range 1 = [0] from rfl])⟩

/-! ## Claim C7 -/

/-- The stop condition after `convergenceCheck` is either `Converged` or
the incoming one. -/
theorem convergenceCheck_stop_cases (s : GNState) :
    (convergenceCheck s).stopCondition = .converged
      ∨ (convergenceCheck s).stopCondition = s.stopCondition := by
  rw [convergenceCheck_eq]
  split_ifs <;> simp

/-- `convergenceCheck` never introduces the `SingularMatrix` stop. -/
theorem convergenceCheck_stop_ne_singular (s : GNState)
    (hs : s.stopCondition ≠ .singularMatrix) :
    (convergenceCheck s).stopCondition ≠ .singularMatrix := by
  rcases convergenceCheck_stop_cases s with hc | hc
  · rw [hc]
    intro hcontra
    cases hcontra
  · rw [hc]
    exact hs

/-- Claim C7, amended: with LM enabled the first factorization matrix
carries the damping `A[i,i] = JtJ[i,i] + λ(JtJ[i,i] + 1e-6)`; the retry,
attempted exactly when the first factorization succeeds but reports
non-positive, adds the uniform damping `max(10 λ, 1e-3)`; and the step
stops with `SingularMatrix` iff the residual vector is empty, the
Jacobian is empty or has the wrong column count, the first factorization
fails outright (in which case no retry occurs), the retry was needed and
still fails or is non-positive, or the selected solution is non-finite. -/
theorem claim7_singular_spec (O : LDLTOracle) (P : GNProblem) (st : GNState)
    (p : Vec) (hstop : st.stopCondition ≠ .singularMatrix) :
    ((runSolve O P st p).retried = true ↔
      ((runO1 O P st p).success = true ∧ (runO1 O P st p).isPositive = false)) ∧
    (st.useLevenbergMarquardt = true → ∀ i, i < st.numberOfParameters →
      mget (runA1 P st p) i i
        = mget (runJtJ P st p) i i
          + st.dampingFactor * (mget (runJtJ P st p) i i + 1e-6)) ∧
    (∀ i, i < st.numberOfParameters →
      mget (runA2 P st p) i i
        = mget (runJtJ P st p) i i + max (st.dampingFactor * 10) (1/1000)) ∧
    ((advanceOneStep O P st p).1.stopCondition = .singularMatrix ↔
      ((P.residual p).isEmpty = true ∨
       (P.jacobian p).isEmpty = true ∨
       ((P.jacobian p).headD []).length ≠ st.numberOfParameters ∨
       (runO1 O P st p).success = false ∨
       ((runO1 O P st p).success = true ∧ (runO1 O P st p).isPositive = false ∧
         ¬((runO2 O P st p).success = true ∧ (runO2 O P st p).isPositive = true)) ∨
       ((runO1 O P st p).success = true ∧ (runO1 O P st p).isPositive = true ∧
         (runO1 O P st p).solutionFinite = false) ∨
       ((runO1 O P st p).success = true ∧ (runO1 O P st p).isPositive = false ∧
         (runO2 O P st p).success = true ∧ (runO2 O P st p).isPositive = true ∧
         (runO2 O P st p).solutionFinite = false))) := by
  refine ⟨(runSolve_spec O P st p).1, ?_, ?_, ?_⟩
  · intro hLM i hi
    rw [runA1, if_pos hLM, dampDiag, mget_build _ _ _ _ hi hi, if_pos rfl]
  · intro i hi
    rw [runA2, addDiag, mget_build _ _ _ _ hi hi, if_pos rfl]
  · by_cases h1 : (P.residual p).isEmpty
    · rw [advanceOneStep_of_resEmpty O P st p h1]
      exact iff_of_true rfl (Or.inl h1)
    · replace h1 : (P.residual p).isEmpty = false := by simpa using h1
      by_cases h2 : (P.jacobian p).isEmpty = true
          ∨ ((P.jacobian p).headD []).length ≠ st.numberOfParameters
      · rw [advanceOneStep_of_jacBad O P st p h1 h2]
        refine iff_of_true rfl ?_
        rcases h2 with h2 | h2
        · exact Or.inr (Or.inl h2)
        · exact Or.inr (Or.inr (Or.inl h2))
      · push_neg at h2
        obtain ⟨h2a, h2b⟩ := h2
        replace h2a : (P.jacobian p).isEmpty = false := by simpa using h2a
        have hornone := (runSolve_spec O P st p).2
        rcases hr : (runSolve O P st p).result with _ | u
        · rw [advanceOneStep_of_solveNone O P st p h1 h2a h2b hr]
          exact iff_of_true rfl (Or.inr (Or.inr (Or.inr (hornone.mp hr))))
        · have hnotnone : ¬ ((runO1 O P st p).success = false ∨
              ((runO1 O P st p).success = true ∧ (runO1 O P st p).isPositive = false ∧
                ¬((runO2 O P st p).success = true ∧ (runO2 O P st p).isPositive = true)) ∨
              ((runO1 O P st p).success = true ∧ (runO1 O P st p).isPositive = true ∧
                (runO1 O P st p).solutionFinite = false) ∨
              ((runO1 O P st p).success = true ∧ (runO1 O P st p).isPositive = false ∧
                (runO2 O P st p).success = true ∧ (runO2 O P st p).isPositive = true ∧
                (runO2 O P st p).solutionFinite = false)) := by
            rw [← hornone, hr]
            simp
          have hne : (advanceOneStep O P st p).1.stopCondition ≠ .singularMatrix := by
            by_cases hm : sqrtLt (scaledSqNorm (runUpdate st u) st.scales)
                st.minimumStepLength
            · rw [advanceOneStep_of_magSmall O P st p u h1 h2a h2b hr hm]
              simp
            · replace hm : sqrtLt (scaledSqNorm (runUpdate st u) st.scales)
                  st.minimumStepLength = false := by simpa using hm
              by_cases hacc : P.cost (stepParams p (runUpdate st u)
                  (runStepFactor P st p (runUpdate st u)) st.numberOfParameters)
                  < st.currentValue
              · rw [advanceOneStep_accept_eq O P st p u h1 h2a h2b hr hm hacc]
                dsimp only
                exact convergenceCheck_stop_ne_singular _ hstop
              · rw [advanceOneStep_reject_eq O P st p u h1 h2a h2b hr hm hacc]
                dsimp only
                apply convergenceCheck_stop_ne_singular
                simp only [rejectState]
                split_ifs
                · intro hcontra
                  cases hcontra
                · exact hstop
          simp only [hne, false_iff]
          intro hd
          rcases hd with hd | hd | hd | hd
          · simp [hd] at h1
          · simp [hd] at h2a
          · exact hd h2b
          · exact hnotnone hd

/-- Counterexample to claim C7 as stated: when the first factorization
fails outright (`info() != Success`), the optimizer stops with
`SingularMatrix` although no retry was ever attempted (so no "retry
still failed"), no selected solution is non-finite, and the residuals
and Jacobian are well-formed — a failure path the claimed
"if and only if" omits. -/
theorem claim7_counterexample :
    (advanceOneStep exOracleFail exProblem exState [0]).1.stopCondition
      = .singularMatrix ∧
    (runSolve exOracleFail exProblem exState [0]).retried = false ∧
    (exProblem.residual [0]).isEmpty = false ∧
    (exProblem.jacobian [0]).isEmpty = false ∧
    ((exProblem.jacobian [0]).headD []).length = exState.numberOfParameters ∧
    (runO1 exOracleFail exProblem exState [0]).success = false ∧
    (runO1 exOracleFail exProblem exState [0]).solutionFinite = true := by
  have hnone : (runSolve exOracleFail exProblem exState [0]).result = none := rfl
  refine ⟨?_, rfl, rfl, rfl, rfl, rfl, rfl⟩
  rw [advanceOneStep_of_solveNone exOracleFail exProblem exState [0]
    exRun_residual_nonempty exRun_jacobian_nonempty exRun_jacobian_cols hnone]

/-- Sampling only rewrites the sample list and the generator state. -/
theorem sampleFixedImage_proj {G : Type} (E : MetricEnv G) (st : MState G)
    (f : ImgId) :
    (sampleFixedImage E st f).fixedMINDFeatures = st.fixedMINDFeatures ∧
    (sampleFixedImage E st f).movingMINDFeatures = st.movingMINDFeatures ∧
    (sampleFixedImage E st f).fixedImage = st.fixedImage ∧
    (sampleFixedImage E st f).movingImage = st.movingImage ∧
    (sampleFixedImage E st f).transformSet = st.transformSet ∧
    (sampleFixedImage E st f).mindRadius = st.mindRadius ∧
    (sampleFixedImage E st f).cachedFixedImage = st.cachedFixedImage ∧
    (sampleFixedImage E st f).cachedMovingImage = st.cachedMovingImage ∧
    (sampleFixedImage E st f).fixedMINDFeaturesValid = st.fixedMINDFeaturesValid ∧
    (sampleFixedImage E st f).movingMINDFeaturesValid = st.movingMINDFeaturesValid ∧
    (sampleFixedImage E st f).useFixedSeed = st.useFixedSeed ∧
    (sampleFixedImage E st f).randomSeed = st.randomSeed := by
  unfold sampleFixedImage
  split_ifs <;> exact ⟨rfl, rfl, rfl, rfl, rfl, rfl, rfl, rfl, rfl, rfl, rfl, rfl⟩

/-- The sample list produced by `SampleFixedImage`. -/
theorem sampleFixedImage_samplePoints {G : Type} (E : MetricEnv G) (st : MState G)
    (f : ImgId) :
    (sampleFixedImage E st f).samplePoints =
      (if st.useStratifiedSampling then sampleStratified E st f
       else (sampleRandom E st f).1) := by
  unfold sampleFixedImage
  split_ifs <;> rfl

/-- Seeding only rewrites the generator state. -/
theorem initSeed_proj {G : Type} (E : MetricEnv G) (st : MState G) :
    (initSeed E st).fixedMINDFeatures = st.fixedMINDFeatures ∧
    (initSeed E st).movingMINDFeatures = st.movingMINDFeatures ∧
    (initSeed E st).fixedImage = st.fixedImage ∧
    (initSeed E st).movingImage = st.movingImage ∧
    (initSeed E st).transformSet = st.transformSet ∧
    (initSeed E st).mindRadius = st.mindRadius ∧
    (initSeed E st).cachedFixedImage = st.cachedFixedImage ∧
    (initSeed E st).cachedMovingImage = st.cachedMovingImage ∧
    (initSeed E st).fixedMINDFeaturesValid = st.fixedMINDFeaturesValid ∧
    (initSeed E st).movingMINDFeaturesValid = st.movingMINDFeaturesValid ∧
    (initSeed E st).samplePoints = st.samplePoints := by
  unfold initSeed
  split_ifs <;> exact ⟨rfl, rfl, rfl, rfl, rfl, rfl, rfl, rfl, rfl, rfl, rfl⟩

/-- The generator state after the seeding block. -/
theorem initSeed_randomGenerator {G : Type} (E : MetricEnv G) (st : MState G) :
    (initSeed E st).randomGenerator =
      (if st.useFixedSeed then E.seedGen st.randomSeed else E.randomDeviceGen) := by
  unfold initSeed
  split_ifs <;> rfl

/-- The moving-cache block leaves the fixed-side and configuration
fields untouched. -/
theorem initMovingCache_proj {G : Type} (E : MetricEnv G) (st : MState G)
    (mi : ImgId) :
    (initMovingCache E st mi).fixedMINDFeatures = st.fixedMINDFeatures ∧
    (initMovingCache E st mi).fixedImage = st.fixedImage ∧
    (initMovingCache E st mi).movingImage = st.movingImage ∧
    (initMovingCache E st mi).transformSet = st.transformSet ∧
    (initMovingCache E st mi).mindRadius = st.mindRadius ∧
    (initMovingCache E st mi).cachedFixedImage = st.cachedFixedImage ∧
    (initMovingCache E st mi).fixedMINDFeaturesValid = st.fixedMINDFeaturesValid ∧
    (initMovingCache E st mi).useFixedSeed = st.useFixedSeed ∧
    (initMovingCache E st mi).randomSeed = st.randomSeed := by
  unfold initMovingCache
  split_ifs <;> exact ⟨rfl, rfl, rfl, rfl, rfl, rfl, rfl, rfl, rfl⟩

/-- The moving features after the moving-cache block: recomputed exactly
when the cached pointer differs or the valid flag is clear. -/
theorem initMovingCache_movingFeats {G : Type} (E : MetricEnv G) (st : MState G)
    (mi : ImgId) :
    (initMovingCache E st mi).movingMINDFeatures =
      (if st.cachedMovingImage ≠ some mi ∨ ¬ st.movingMINDFeaturesValid
       then E.computeFeatures mi st.mindRadius st.neighborhoodOffsets
       else st.movingMINDFeatures) := by
  unfold initMovingCache
  split_ifs <;> rfl

/-- After the moving-cache block the cached pointer is the moving image. -/
theorem initMovingCache_cached {G : Type} (E : MetricEnv G) (st : MState G)
    (mi : ImgId) : (initMovingCache E st mi).cachedMovingImage = some mi := by
  unfold initMovingCache
  split_ifs with h
  · rfl
  · push_neg at h
    exact h.1

/-- After the moving-cache block the valid flag is set. -/
theorem initMovingCache_valid {G : Type} (E : MetricEnv G) (st : MState G)
    (mi : ImgId) : (initMovingCache E st mi).movingMINDFeaturesValid = true := by
  unfold initMovingCache
  split_ifs with h
  · rfl
  · push_neg at h
    exact h.2

/-- The fixed-cache block leaves the moving-side and configuration
fields untouched. -/
theorem initFixedCache_proj {G : Type} (E : MetricEnv G) (st : MState G)
    (fi : ImgId) :
    (initFixedCache E st fi).movingMINDFeatures = st.movingMINDFeatures ∧
    (initFixedCache E st fi).fixedImage = st.fixedImage ∧
    (initFixedCache E st fi).movingImage = st.movingImage ∧
    (initFixedCache E st fi).transformSet = st.transformSet ∧
    (initFixedCache E st fi).mindRadius = st.mindRadius ∧
    (initFixedCache E st fi).cachedMovingImage = st.cachedMovingImage ∧
    (initFixedCache E st fi).movingMINDFeaturesValid = st.movingMINDFeaturesValid ∧
    (initFixedCache E st fi).useFixedSeed = st.useFixedSeed ∧
    (initFixedCache E st fi).randomSeed = st.randomSeed ∧
    (initFixedCache E st fi).neighborhoodOffsets = st.neighborhoodOffsets := by
  unfold initFixedCache
  split_ifs <;> exact ⟨rfl, rfl, rfl, rfl, rfl, rfl, rfl, rfl, rfl, rfl⟩

/-- The fixed features after the fixed-cache block: recomputed exactly
when the cached pointer differs or the valid flag is clear. -/
theorem initFixedCache_fixedFeats {G : Type} (E : MetricEnv G) (st : MState G)
    (fi : ImgId) :
    (initFixedCache E st fi).fixedMINDFeatures =
      (if st.cachedFixedImage ≠ some fi ∨ ¬ st.fixedMINDFeaturesValid
       then E.computeFeatures fi st.mindRadius st.neighborhoodOffsets
       else st.fixedMINDFeatures) := by
  unfold initFixedCache
  split_ifs <;> rfl

/-- After the fixed-cache block the cached pointer is the fixed image. -/
theorem initFixedCache_cached {G : Type} (E : MetricEnv G) (st : MState G)
    (fi : ImgId) : (initFixedCache E st fi).cachedFixedImage = some fi := by
  unfold initFixedCache
  split_ifs with h
  · rfl
  · push_neg at h
    exact h.1

/-- After the fixed-cache block the valid flag is set. -/
theorem initFixedCache_valid {G : Type} (E : MetricEnv G) (st : MState G)
    (fi : ImgId) : (initFixedCache E st fi).fixedMINDFeaturesValid = true := by
  unfold initFixedCache
  split_ifs with h
  · rfl
  · push_neg at h
    exact h.2

/-- Reduction of a successful `Initialize` to the stage pipeline. -/
theorem initializeMetric_some {G : Type} (E : MetricEnv G) (st : MState G)
    (fi mi : ImgId) (hf : st.fixedImage = some fi) (hm : st.movingImage = some mi)
    (ht : st.transformSet = true) :
    initializeMetric E st = some (initSeed E (sampleFixedImage E
      (initMovingCache E (initFixedCache E (initOffsets st) fi) mi) fi)) := by
  simp only [initializeMetric, hf, hm, ht, not_true_eq_false, Bool.false_eq_true,
    if_false]

/-- The state produced by a successful `Initialize`: features are
recomputed exactly when the cached pointer differs or the valid flag is
clear; afterwards both cache pointers and valid flags are set, and the
image and configuration fields are untouched. -/
theorem initializeMetric_fields {G : Type} (E : MetricEnv G) (st : MState G)
    (fi mi : ImgId) (hf : st.fixedImage = some fi) (hm : st.movingImage = some mi)
    (ht : st.transformSet = true) :
    ∃ st', initializeMetric E st = some st' ∧
      st'.fixedMINDFeatures
        = (if st.cachedFixedImage ≠ some fi ∨ ¬ st.fixedMINDFeaturesValid
           then E.computeFeatures fi st.mindRadius
             (neighborhoodOffsetsOf st.neighborhoodType)
           else st.fixedMINDFeatures) ∧
      st'.movingMINDFeatures
        = (if st.cachedMovingImage ≠ some mi ∨ ¬ st.movingMINDFeaturesValid
           then E.computeFeatures mi st.mindRadius
             (neighborhoodOffsetsOf st.neighborhoodType)
           else st.movingMINDFeatures) ∧
      st'.fixedImage = some fi ∧
      st'.movingImage = some mi ∧
      st'.transformSet = true ∧
      st'.mindRadius = st.mindRadius ∧
      st'.cachedFixedImage = some fi ∧
      st'.cachedMovingImage = some mi ∧
      st'.fixedMINDFeaturesValid = true ∧
      st'.movingMINDFeaturesValid = true := by
  refine ⟨_, initializeMetric_some E st fi mi hf hm ht, ?_, ?_, ?_, ?_, ?_, ?_,
    ?_, ?_, ?_, ?_⟩
  · rw [(initSeed_proj E _).1, (sampleFixedImage_proj E _ fi).1,
      (initMovingCache_proj E _ mi).1, initFixedCache_fixedFeats]
    rfl
  · rw [(initSeed_proj E _).2.1, (sampleFixedImage_proj E _ fi).2.1,
      initMovingCache_movingFeats, (initFixedCache_proj E _ fi).2.2.2.2.1,
      (initFixedCache_proj E _ fi).2.2.2.2.2.1,
      (initFixedCache_proj E _ fi).2.2.2.2.2.2.1,
      (initFixedCache_proj E _ fi).1,
      (initFixedCache_proj E _ fi).2.2.2.2.2.2.2.2.2]
    rfl
  · rw [(initSeed_proj E _).2.2.1, (sampleFixedImage_proj E _ fi).2.2.1,
      (initMovingCache_proj E _ mi).2.1, (initFixedCache_proj E _ fi).2.1]
    exact hf
  · rw [(initSeed_proj E _).2.2.2.1, (sampleFixedImage_proj E _ fi).2.2.2.1,
      (initMovingCache_proj E _ mi).2.2.1, (initFixedCache_proj E _ fi).2.2.1]
    exact hm
  · rw [(initSeed_proj E _).2.2.2.2.1, (sampleFixedImage_proj E _ fi).2.2.2.2.1,
      (initMovingCache_proj E _ mi).2.2.2.1, (initFixedCache_proj E _ fi).2.2.2.1]
    exact ht
  · rw [(initSeed_proj E _).2.2.2.2.2.1, (sampleFixedImage_proj E _ fi).2.2.2.2.2.1,
      (initMovingCache_proj E _ mi).2.2.2.2.1, (initFixedCache_proj E _ fi).2.2.2.2.1]
    rfl
  · rw [(initSeed_proj E _).2.2.2.2.2.2.1,
      (sampleFixedImage_proj E _ fi).2.2.2.2.2.2.1,
      (initMovingCache_proj E _ mi).2.2.2.2.2.1, initFixedCache_cached]
  · rw [(initSeed_proj E _).2.2.2.2.2.2.2.1,
      (sampleFixedImage_proj E _ fi).2.2.2.2.2.2.2.1, initMovingCache_cached]
  · rw [(initSeed_proj E _).2.2.2.2.2.2.2.2.1,
      (sampleFixedImage_proj E _ fi).2.2.2.2.2.2.2.2.1,
      (initMovingCache_proj E _ mi).2.2.2.2.2.2.1, initFixedCache_valid]
  · rw [(initSeed_proj E _).2.2.2.2.2.2.2.2.2.1,
      (sampleFixedImage_proj E _ fi).2.2.2.2.2.2.2.2.2.1, initMovingCache_valid]

/-! ## Claim C9 -/

/-- Claim C9: `m_MINDSigma` is stored (and printed) but read by no
computation: states differing only in the value passed to
`SetMINDSigma` produce identical patch distances, MIND features, metric
values and valid-sample counts, residuals, and residual/Jacobian pairs. -/
theorem claim9_sigma_invariance {G : Type} (st : MState G) (sigma : ℚ)
    (v : VolumeQ) :
    computePatchDistancesS (setMINDSigma sigma st) v
      = computePatchDistancesS st v ∧
    computeMINDFeaturesS (setMINDSigma sigma st) v
      = computeMINDFeaturesS st v ∧
    (getValue (setMINDSigma sigma st)).1 = (getValue st).1 ∧
    (getValue (setMINDSigma sigma st)).2.numberOfValidSamples
      = (getValue st).2.numberOfValidSamples ∧
    getResiduals (setMINDSigma sigma st) = getResiduals st ∧
    getResidualsAndJacobian (setMINDSigma sigma st)
      = getResidualsAndJacobian st :=
  ⟨rfl, rfl, rfl, rfl, rfl, rfl⟩

/-! ## Claim C6 -/

/-- A range-sum of pointwise-nonnegative terms is nonnegative. -/
theorem sumRange_nonneg (m : ℕ) (f : ℕ → ℚ) (h : ∀ i, 0 ≤ f i) :
    0 ≤ sumRange m f := by
  unfold sumRange
  apply List.sum_nonneg
  intro x hx
  obtain ⟨i, _, rfl⟩ := List.mem_map.mp hx
  exact h i

/-- A sample's squared-difference sum is nonnegative. -/
theorem sampleSSDAt_nonneg {G : Type} (st : MState G) (s : SampleP)
    (tp : PhysPt) (K : ℕ) : 0 ≤ sampleSSDAt st s tp K := by
  apply sumRange_nonneg
  intro ch
  exact mul_self_nonneg _

/-- The accumulated squared-difference total stays nonnegative through
the `ComputeMINDSSD` loop. -/
theorem ssdFold_fst_nonneg {G : Type} (st : MState G) (K : ℕ) :
    ∀ (l : List SampleP) (a : ℚ × ℕ), 0 ≤ a.1 →
      0 ≤ (List.foldl (ssdStep st K) a l).1 := by
  intro l
  induction l with
  | nil => intro a ha; simpa using ha
  | cons s rest ih =>
      intro a ha
      rw [List.foldl_cons]
      apply ih
      simp only [ssdStep]
      split_ifs
      · exact add_nonneg ha (sampleSSDAt_nonneg st s _ K)
      · exact ha

/-- The `ComputeMINDSSD` loop is the identity on a list of samples none
of which is valid. -/
theorem ssdFold_invalid {G : Type} (st : MState G) (K : ℕ) :
    ∀ (l : List SampleP) (a : ℚ × ℕ),
      (∀ s ∈ l, allChannelsValidAt st (st.transform s.fixedPoint) K = false) →
      List.foldl (ssdStep st K) a l = a := by
  intro l
  induction l with
  | nil => intro a _; rfl
  | cons s rest ih =>
      intro a h
      rw [List.foldl_cons]
      have hs := h s (List.mem_cons_self s rest)
      have hstep : ssdStep st K a s = a := by
        simp only [ssdStep, hs]
        simp
      rw [hstep]
      exact ih a fun x hx => h x (List.mem_cons_of_mem s hx)

/-- Claim C6: `GetValue` always returns a nonnegative metric value, and
when no sample is valid (every transformed sample point falls outside
some channel's interpolation buffer) it returns exactly `0.0` and
records `N_valid = 0`. -/
theorem claim6_value_spec {G : Type} (st : MState G) :
    (0 ≤ (getValue st).1) ∧
    ((∀ s ∈ st.samplePoints,
        allChannelsValidAt st (st.transform s.fixedPoint)
          st.movingMINDFeatures.length = false) →
      (getValue st).1 = 0 ∧ (getValue st).2.numberOfValidSamples = 0) := by
  constructor
  · simp only [getValue, computeMINDSSD]
    split_ifs with h
    · apply div_nonneg
      · exact ssdFold_fst_nonneg st _ st.samplePoints (0, 0) (le_refl 0)
      · positivity
    · exact le_refl 0
  · intro h
    have hfold : List.foldl (ssdStep st st.movingMINDFeatures.length) (0, 0)
        st.samplePoints = (0, 0) :=
      ssdFold_invalid st _ st.samplePoints (0, 0) h
    simp only [getValue, computeMINDSSD, hfold]
    norm_num

/-- Witness for `claim6_value_spec`: at the concrete metric state the
single sample is invalid, so the value is `0` with `N_valid = 0`, and
the value is nonnegative. -/
theorem claim6_witness :
    (∀ s ∈ exMetric.samplePoints,
        allChannelsValidAt exMetric (exMetric.transform s.fixedPoint)
          exMetric.movingMINDFeatures.length = false) ∧
    ((getValue exMetric).1 = 0 ∧ (getValue exMetric).2.numberOfValidSamples = 0) ∧
    (0 ≤ (getValue exMetric).1) :=
  ⟨by decide, (claim6_value_spec exMetric).2 (by decide),
    (claim6_value_spec exMetric).1⟩

/-- Witness for `claim7_singular_spec`: its hypothesis holds, and its
conclusion is obtained, at the concrete run with the well-behaved
oracle. -/
theorem claim7_witness :
    (exState.stopCondition ≠ .singularMatrix) ∧
    (((runSolve exOracleOk exProblem exState [0]).retried = true ↔
      ((runO1 exOracleOk exProblem exState [0]).success = true ∧
        (runO1 exOracleOk exProblem exState [0]).isPositive = false)) ∧
    (exState.useLevenbergMarquardt = true → ∀ i, i < exState.numberOfParameters →
      mget (runA1 exProblem exState [0]) i i
        = mget (runJtJ exProblem exState [0]) i i
          + exState.dampingFactor * (mget (runJtJ exProblem exState [0]) i i + 1e-6)) ∧
    (∀ i, i < exState.numberOfParameters →
      mget (runA2 exProblem exState [0]) i i
        = mget (runJtJ exProblem exState [0]) i i
          + max (exState.dampingFactor * 10) (1/1000)) ∧
    ((advanceOneStep exOracleOk exProblem exState [0]).1.stopCondition
        = .singularMatrix ↔
      ((exProblem.residual [0]).isEmpty = true ∨
       (exProblem.jacobian [0]).isEmpty = true ∨
       ((exProblem.jacobian [0]).headD []).length ≠ exState.numberOfParameters ∨
       (runO1 exOracleOk exProblem exState [0]).success = false ∨
       ((runO1 exOracleOk exProblem exState [0]).success = true ∧
         (runO1 exOracleOk exProblem exState [0]).isPositive = false ∧
         ¬((runO2 exOracleOk exProblem exState [0]).success = true ∧
           (runO2 exOracleOk exProblem exState [0]).isPositive = true)) ∨
       ((runO1 exOracleOk exProblem exState [0]).success = true ∧
         (runO1 exOracleOk exProblem exState [0]).isPositive = true ∧
         (runO1 exOracleOk exProblem exState [0]).solutionFinite = false) ∨
       ((runO1 exOracleOk exProblem exState [0]).success = true ∧
         (runO1 exOracleOk exProblem exState [0]).isPositive = false ∧
         (runO2 exOracleOk exProblem exState [0]).success = true ∧
         (runO2 exOracleOk exProblem exState [0]).isPositive = true ∧
         (runO2 exOracleOk exProblem exState [0]).solutionFinite = false)))) :=
  ⟨by decide,
    claim7_singular_spec exOracleOk exProblem exState [0] (by decide)⟩

/-- C8: `Initialize` reuses a cached MIND bundle exactly when the cached
image pointer equals the current one and the valid flag is set — the
descriptor parameters (`mindRadius`, neighborhood type) are NOT part of the
cache condition — and after `ResetCache` the next `Initialize` recomputes
both bundles unconditionally. -/
theorem claim8_cache_spec {G : Type} (E : MetricEnv G) (st : MState G)
    (fi mi : ImgId) (hf : st.fixedImage = some fi) (hm : st.movingImage = some mi)
    (ht : st.transformSet = true) :
    (∃ st', initializeMetric E st = some st' ∧
      st'.fixedMINDFeatures
        = (if st.cachedFixedImage ≠ some fi ∨ ¬ st.fixedMINDFeaturesValid
           then E.computeFeatures fi st.mindRadius
             (neighborhoodOffsetsOf st.neighborhoodType)
           else st.fixedMINDFeatures) ∧
      st'.movingMINDFeatures
        = (if st.cachedMovingImage ≠ some mi ∨ ¬ st.movingMINDFeaturesValid
           then E.computeFeatures mi st.mindRadius
             (neighborhoodOffsetsOf st.neighborhoodType)
           else st.movingMINDFeatures) ∧
      st'.cachedFixedImage = some fi ∧
      st'.cachedMovingImage = some mi ∧
      st'.fixedMINDFeaturesValid = true ∧
      st'.movingMINDFeaturesValid = true) ∧
    (∃ st'', initializeMetric E (resetCache st) = some st'' ∧
      st''.fixedMINDFeatures
        = E.computeFeatures fi st.mindRadius
            (neighborhoodOffsetsOf st.neighborhoodType) ∧
      st''.movingMINDFeatures
        = E.computeFeatures mi st.mindRadius
            (neighborhoodOffsetsOf st.neighborhoodType)) := by
  constructor
  · obtain ⟨st', h0, h1, h2, _, _, _, _, h7, h8, h9, h10⟩ :=
      initializeMetric_fields E st fi mi hf hm ht
    exact ⟨st', h0, h1, h2, h7, h8, h9, h10⟩
  · obtain ⟨st'', h0, h1, h2, _⟩ :=
      initializeMetric_fields E (resetCache st) fi mi
        (by simp [resetCache, hf]) (by simp [resetCache, hm])
        (by simp [resetCache, ht])
    refine ⟨st'', h0, ?_, ?_⟩
    · rw [h1]; simp [resetCache]
    · rw [h2]; simp [resetCache]

/-- C8 counterexample: initialize with radius 1, call `SetMINDRadius 2`,
initialize again.  The second `Initialize` keeps the radius-1 fixed bundle
(head channel constantly `1`) although recomputation with the now-current
parameters would give the channel constantly `2` — so cache reuse does not
require equal descriptor parameters as the claim states. -/
theorem claim8_counterexample :
    ((initializeMetric exEnvC8 exMetricC8).bind (fun s1 =>
        initializeMetric exEnvC8 (setMINDRadius 2 s1))).map
      (fun s2 => (s2.fixedMINDFeatures.headD (fun _ => 0)) (0, 0, 0))
      = some 1 ∧
    ((initializeMetric exEnvC8 exMetricC8).map (fun s1 =>
        ((exEnvC8.computeFeatures 7 (setMINDRadius 2 s1).mindRadius
          (neighborhoodOffsetsOf (setMINDRadius 2 s1).neighborhoodType)).headD
            (fun _ => 0)) (0, 0, 0)))
      = some 2 ∧
    ((initializeMetric exEnvC8 exMetricC8).map (fun s1 =>
        (setMINDRadius 2 s1).fixedImage)) = some (some 7) ∧
    ((initializeMetric exEnvC8 exMetricC8).map (fun s1 =>
        (setMINDRadius 2 s1).movingImage)) = some (some 8) := by
  obtain ⟨s1, h0, hff, hmf, hfi, hmi, hts, hrad, hcf, hcm, hvf, hvm⟩ :=
    initializeMetric_fields exEnvC8 exMetricC8 7 8 rfl rfl rfl
  obtain ⟨s2, g0, gff, -, -, -, -, -, -, -, -, -⟩ :=
    initializeMetric_fields exEnvC8 (setMINDRadius 2 s1) 7 8
      (by simp [setMINDRadius, hfi]) (by simp [setMINDRadius, hmi])
      (by simp [setMINDRadius, hts])
  have hcond : ¬((setMINDRadius 2 s1).cachedFixedImage ≠ some 7 ∨
      ¬ (setMINDRadius 2 s1).fixedMINDFeaturesValid) := by
    simp [setMINDRadius, hcf, hvf]
  refine ⟨?_, ?_, ?_, ?_⟩
  · rw [h0]
    simp only [Option.some_bind]
    rw [g0]
    simp only [Option.map_some']
    have : (setMINDRadius 2 s1).fixedMINDFeatures = s1.fixedMINDFeatures := rfl
    rw [gff, if_neg hcond, this, hff]
    norm_num [exMetricC8, exEnvC8]
  · rw [h0]
    simp only [Option.map_some']
    have : (setMINDRadius 2 s1).mindRadius = 2 := rfl
    rw [this]
    norm_num [exEnvC8]
  · rw [h0]
    simp only [Option.map_some']
    have : (setMINDRadius 2 s1).fixedImage = s1.fixedImage := rfl
    rw [this, hfi]
  · rw [h0]
    simp only [Option.map_some']
    have : (setMINDRadius 2 s1).movingImage = s1.movingImage := rfl
    rw [this, hmi]

/-- C8 witness: the cache characterization at the concrete fresh state. -/
theorem claim8_witness :
    exMetricC8.fixedImage = some 7 ∧
    exMetricC8.movingImage = some 8 ∧
    exMetricC8.transformSet = true ∧
    ((∃ st', initializeMetric exEnvC8 exMetricC8 = some st' ∧
      st'.fixedMINDFeatures
        = (if exMetricC8.cachedFixedImage ≠ some 7 ∨
              ¬ exMetricC8.fixedMINDFeaturesValid
           then exEnvC8.computeFeatures 7 exMetricC8.mindRadius
             (neighborhoodOffsetsOf exMetricC8.neighborhoodType)
           else exMetricC8.fixedMINDFeatures) ∧
      st'.movingMINDFeatures
        = (if exMetricC8.cachedMovingImage ≠ some 8 ∨
              ¬ exMetricC8.movingMINDFeaturesValid
           then exEnvC8.computeFeatures 8 exMetricC8.mindRadius
             (neighborhoodOffsetsOf exMetricC8.neighborhoodType)
           else exMetricC8.movingMINDFeatures) ∧
      st'.cachedFixedImage = some 7 ∧
      st'.cachedMovingImage = some 8 ∧
      st'.fixedMINDFeaturesValid = true ∧
      st'.movingMINDFeaturesValid = true) ∧
    (∃ st'', initializeMetric exEnvC8 (resetCache exMetricC8) = some st'' ∧
      st''.fixedMINDFeatures
        = exEnvC8.computeFeatures 7 exMetricC8.mindRadius
            (neighborhoodOffsetsOf exMetricC8.neighborhoodType) ∧
      st''.movingMINDFeatures
        = exEnvC8.computeFeatures 8 exMetricC8.mindRadius
            (neighborhoodOffsetsOf exMetricC8.neighborhoodType))) :=
  ⟨rfl, rfl, rfl, claim8_cache_spec exEnvC8 exMetricC8 7 8 rfl rfl rfl⟩

/-- Sample records read no seed field. -/
theorem mkSample_seed {G : Type} (E : MetricEnv G) (m : MState G) (s : ℕ)
    (f : ImgId) (c : VoxIdx) :
    mkSample E (setRandomSeed s m) f c = mkSample E m f c := rfl

/-- The random attempt loop reads only the mask and the fixed features
from the state. -/
theorem sampleRandomLoop_congr {G : Type} (E : MetricEnv G) (m' m : MState G)
    (f : ImgId) (target padding sx sy sz : ℕ)
    (hmask : m'.fixedImageMask = m.fixedImageMask)
    (hfeat : m'.fixedMINDFeatures = m.fixedMINDFeatures) :
    ∀ (fuel : ℕ) (g : G) (acc : List SampleP),
      sampleRandomLoop E m' f target padding sx sy sz fuel g acc
        = sampleRandomLoop E m f target padding sx sy sz fuel g acc := by
  intro fuel
  induction fuel with
  | zero => intro g acc; rfl
  | succ n ih =>
      intro g acc
      have hmk : ∀ c, mkSample E m' f c = mkSample E m f c := by
        intro c; simp only [mkSample, hfeat]
      simp only [sampleRandomLoop]
      split_ifs with h
      · rfl
      · rw [hmask]
        cases hm2 : m.fixedImageMask with
        | none => dsimp only; rw [hmk]; exact ih _ _
        | some mask =>
            dsimp only
            split_ifs with h2 <;>
              first
                | exact ih _ _
                | (rw [hmk]; exact ih _ _)

/-- The random attempt loop reads no seed field. -/
theorem sampleRandomLoop_seed {G : Type} (E : MetricEnv G) (m : MState G)
    (s : ℕ) (f : ImgId) (target padding sx sy sz : ℕ) :
    ∀ (fuel : ℕ) (g : G) (acc : List SampleP),
      sampleRandomLoop E (setRandomSeed s m) f target padding sx sy sz fuel g acc
        = sampleRandomLoop E m f target padding sx sy sz fuel g acc :=
  sampleRandomLoop_congr E (setRandomSeed s m) m f target padding sx sy sz rfl rfl

/-- `SampleFixedImageRandom` reads no seed field. -/
theorem sampleRandom_seed {G : Type} (E : MetricEnv G) (m : MState G) (s : ℕ)
    (f : ImgId) :
    sampleRandom E (setRandomSeed s m) f = sampleRandom E m f := by
  simp only [sampleRandom, setRandomSeed]
  exact sampleRandomLoop_seed E m s f _ _ _ _ _ _ _ _

/-- `SetRandomSeed` commutes with the fixed-cache block. -/
theorem initFixedCache_seed {G : Type} (E : MetricEnv G) (m : MState G)
    (fi : ImgId) (s : ℕ) :
    initFixedCache E (setRandomSeed s m) fi
      = setRandomSeed s (initFixedCache E m fi) := by
  simp only [initFixedCache]
  by_cases h : m.cachedFixedImage ≠ some fi ∨ ¬ m.fixedMINDFeaturesValid
  · rw [if_pos h,
      if_pos (show (setRandomSeed s m).cachedFixedImage ≠ some fi ∨
        ¬ (setRandomSeed s m).fixedMINDFeaturesValid from h)]
    rfl
  · rw [if_neg h,
      if_neg (show ¬ ((setRandomSeed s m).cachedFixedImage ≠ some fi ∨
        ¬ (setRandomSeed s m).fixedMINDFeaturesValid) from h)]

/-- `SetRandomSeed` commutes with the moving-cache block. -/
theorem initMovingCache_seed {G : Type} (E : MetricEnv G) (m : MState G)
    (mi : ImgId) (s : ℕ) :
    initMovingCache E (setRandomSeed s m) mi
      = setRandomSeed s (initMovingCache E m mi) := by
  simp only [initMovingCache]
  by_cases h : m.cachedMovingImage ≠ some mi ∨ ¬ m.movingMINDFeaturesValid
  · rw [if_pos h,
      if_pos (show (setRandomSeed s m).cachedMovingImage ≠ some mi ∨
        ¬ (setRandomSeed s m).movingMINDFeaturesValid from h)]
    rfl
  · rw [if_neg h,
      if_neg (show ¬ ((setRandomSeed s m).cachedMovingImage ≠ some mi ∨
        ¬ (setRandomSeed s m).movingMINDFeaturesValid) from h)]

/-- The caching blocks preserve the sampling-strategy flag. -/
theorem midCache_strat {G : Type} (E : MetricEnv G) (st : MState G)
    (fi mi : ImgId) :
    (initMovingCache E (initFixedCache E (initOffsets st) fi) mi).useStratifiedSampling
      = st.useStratifiedSampling := by
  simp only [initOffsets, initFixedCache, initMovingCache]
  split_ifs <;> rfl

/-- C10: `Initialize` samples the fixed image before seeding the random
generator, so the sample set of the first `Initialize` under random
sampling does not depend on the configured seed; the seed is installed
into the generator only afterwards (influencing later calls). -/
theorem claim10_seed_independence {G : Type} (E : MetricEnv G) (st : MState G)
    (s1 s2 : ℕ) (fi mi : ImgId)
    (hf : st.fixedImage = some fi) (hm : st.movingImage = some mi)
    (ht : st.transformSet = true) (hs : st.useStratifiedSampling = false) :
    (initializeMetric E (setRandomSeed s1 st)).map (fun r => r.samplePoints)
      = (initializeMetric E (setRandomSeed s2 st)).map (fun r => r.samplePoints) ∧
    (initializeMetric E (setRandomSeed s1 st)).map (fun r => r.randomGenerator)
      = some (E.seedGen s1) ∧
    (initializeMetric E (setRandomSeed s2 st)).map (fun r => r.randomGenerator)
      = some (E.seedGen s2) := by
  have ho1 : initOffsets (setRandomSeed s1 st) = setRandomSeed s1 (initOffsets st) := rfl
  have ho2 : initOffsets (setRandomSeed s2 st) = setRandomSeed s2 (initOffsets st) := rfl
  rw [initializeMetric_some E (setRandomSeed s1 st) fi mi hf hm ht,
    initializeMetric_some E (setRandomSeed s2 st) fi mi hf hm ht,
    ho1, ho2, initFixedCache_seed, initFixedCache_seed,
    initMovingCache_seed, initMovingCache_seed]
  simp only [Option.map_some']
  have hstrat1 : (setRandomSeed s1
      (initMovingCache E (initFixedCache E (initOffsets st) fi) mi)).useStratifiedSampling
      = false := by
    show (initMovingCache E (initFixedCache E (initOffsets st) fi) mi).useStratifiedSampling
      = false
    rw [midCache_strat]; exact hs
  have hstrat2 : (setRandomSeed s2
      (initMovingCache E (initFixedCache E (initOffsets st) fi) mi)).useStratifiedSampling
      = false := hstrat1
  refine ⟨?_, ?_, ?_⟩
  · rw [(initSeed_proj E _).2.2.2.2.2.2.2.2.2.2,
      (initSeed_proj E _).2.2.2.2.2.2.2.2.2.2,
      sampleFixedImage_samplePoints, sampleFixedImage_samplePoints,
      hstrat1, hstrat2]
    simp only [Bool.false_eq_true, if_false]
    rw [sampleRandom_seed, sampleRandom_seed]
  · rw [initSeed_randomGenerator]
    simp only [(sampleFixedImage_proj E _ fi).2.2.2.2.2.2.2.2.2.2.1,
      (sampleFixedImage_proj E _ fi).2.2.2.2.2.2.2.2.2.2.2]
    simp [setRandomSeed]
  · rw [initSeed_randomGenerator]
    simp only [(sampleFixedImage_proj E _ fi).2.2.2.2.2.2.2.2.2.2.1,
      (sampleFixedImage_proj E _ fi).2.2.2.2.2.2.2.2.2.2.2]
    simp [setRandomSeed]

/-- C10 witness: seed independence of the first sampling at the concrete
state under random sampling, with seeds 5 and 99. -/
theorem claim10_witness :
    exMetricC10.fixedImage = some 7 ∧
    exMetricC10.movingImage = some 8 ∧
    exMetricC10.transformSet = true ∧
    exMetricC10.useStratifiedSampling = false ∧
    ((initializeMetric exEnvC8 (setRandomSeed 5 exMetricC10)).map
        (fun r => r.samplePoints)
      = (initializeMetric exEnvC8 (setRandomSeed 99 exMetricC10)).map
        (fun r => r.samplePoints) ∧
    (initializeMetric exEnvC8 (setRandomSeed 5 exMetricC10)).map
        (fun r => r.randomGenerator)
      = some (exEnvC8.seedGen 5) ∧
    (initializeMetric exEnvC8 (setRandomSeed 99 exMetricC10)).map
        (fun r => r.randomGenerator)
      = some (exEnvC8.seedGen 99)) :=
  ⟨rfl, rfl, rfl, rfl,
    claim10_seed_independence exEnvC8 exMetricC10 5 99 7 8 rfl rfl rfl rfl⟩

/-- The candidate loop never exceeds the target count. -/
theorem collectStrat_length {G : Type} (E : MetricEnv G) (st : MState G)
    (f : ImgId) (target : ℕ) :
    ∀ (cands : List VoxIdx) (acc : List SampleP), acc.length ≤ target →
      (collectStrat E st f target cands acc).length ≤ target := by
  intro cands
  induction cands with
  | nil => intro acc h; exact h
  | cons c rest ih =>
      intro acc h
      simp only [collectStrat]
      split_ifs with h1
      · exact h
      · cases hm : st.fixedImageMask with
        | none =>
            dsimp only
            exact ih _ (by
              simp only [List.length_append, List.length_cons, List.length_nil]
              omega)
        | some mask =>
            dsimp only
            split_ifs with h2 <;>
              first
                | exact ih _ h
                | exact ih _ (by
                    simp only [List.length_append, List.length_cons,
                      List.length_nil]
                    omega)

/-- Every record produced by the candidate loop either was already
collected or comes from a candidate index that passed the mask test. -/
theorem collectStrat_mem {G : Type} (E : MetricEnv G) (st : MState G)
    (f : ImgId) (target : ℕ) :
    ∀ (cands : List VoxIdx) (acc : List SampleP) (sp : SampleP),
      sp ∈ collectStrat E st f target cands acc →
      sp ∈ acc ∨ ∃ c, c ∈ cands ∧
        (∀ mask, st.fixedImageMask = some mask →
          mask (E.imagePhys f c) = true) ∧
        sp = mkSample E st f c := by
  intro cands
  induction cands with
  | nil => intro acc sp h; exact Or.inl h
  | cons c rest ih =>
      intro acc sp h
      simp only [collectStrat] at h
      split_ifs at h with h1
      · exact Or.inl h
      · cases hm : st.fixedImageMask with
        | none =>
            rw [hm] at h
            dsimp only at h
            rcases ih _ _ h with h' | ⟨c', hc', hm', hsp⟩
            · rcases List.mem_append.mp h' with h'' | h''
              · exact Or.inl h''
              · refine Or.inr ⟨c, List.mem_cons_self c rest, ?_,
                  List.mem_singleton.mp h''⟩
                intro mask' hmask'
                exact Option.noConfusion hmask'
            · exact Or.inr ⟨c', List.mem_cons_of_mem c hc',
                fun mask'' hmm => hm' mask'' (hm.trans hmm), hsp⟩
        | some mask =>
            rw [hm] at h
            dsimp only at h
            by_cases hb : mask (E.imagePhys f c) = true
            · rw [if_neg (not_not_intro hb)] at h
              rcases ih _ _ h with h' | ⟨c', hc', hm', hsp⟩
              · rcases List.mem_append.mp h' with h'' | h''
                · exact Or.inl h''
                · refine Or.inr ⟨c, List.mem_cons_self c rest, ?_,
                    List.mem_singleton.mp h''⟩
                  intro mask' hmask'
                  injection hmask' with hh
                  rw [← hh]
                  exact hb
              · exact Or.inr ⟨c', List.mem_cons_of_mem c hc',
                  fun mask'' hmm => hm' mask'' (hm.trans hmm), hsp⟩
            · rw [if_pos hb] at h
              rcases ih _ _ h with h' | ⟨c', hc', hm', hsp⟩
              · exact Or.inl h'
              · exact Or.inr ⟨c', List.mem_cons_of_mem c hc',
                  fun mask'' hmm => hm' mask'' (hm.trans hmm), hsp⟩

/-- C4: stratified sampling keeps at most `targetSamplesOf` points (the
TRUNCATED product, not its rounding), every kept record comes from a
lattice index with pad `mindRadius + 1` and step
`stratStep = max(1, truncated cbrt)` (not the rounded-up cube root) on
each axis, and passes the mask test when a mask is set. -/
theorem claim4_stratified_spec {G : Type} (E : MetricEnv G) (st : MState G)
    (f : ImgId) :
    (sampleStratified E st f).length
      ≤ targetSamplesOf
          ((E.imageSize f).1 * (E.imageSize f).2.1 * (E.imageSize f).2.2)
          st.samplingPercentage ∧
    List.Forall (fun sp => ∃ x y z : ℕ,
      (st.mindRadius + 1 ≤ x ∧
        x < (E.imageSize f).1 - (st.mindRadius + 1) ∧
        (x - (st.mindRadius + 1)) %
          stratStep
            ((E.imageSize f).1 * (E.imageSize f).2.1 * (E.imageSize f).2.2)
            (targetSamplesOf
              ((E.imageSize f).1 * (E.imageSize f).2.1 * (E.imageSize f).2.2)
              st.samplingPercentage) = 0) ∧
      (st.mindRadius + 1 ≤ y ∧
        y < (E.imageSize f).2.1 - (st.mindRadius + 1) ∧
        (y - (st.mindRadius + 1)) %
          stratStep
            ((E.imageSize f).1 * (E.imageSize f).2.1 * (E.imageSize f).2.2)
            (targetSamplesOf
              ((E.imageSize f).1 * (E.imageSize f).2.1 * (E.imageSize f).2.2)
              st.samplingPercentage) = 0) ∧
      (st.mindRadius + 1 ≤ z ∧
        z < (E.imageSize f).2.2 - (st.mindRadius + 1) ∧
        (z - (st.mindRadius + 1)) %
          stratStep
            ((E.imageSize f).1 * (E.imageSize f).2.1 * (E.imageSize f).2.2)
            (targetSamplesOf
              ((E.imageSize f).1 * (E.imageSize f).2.1 * (E.imageSize f).2.2)
              st.samplingPercentage) = 0) ∧
      (∀ mask, st.fixedImageMask = some mask →
        mask (E.imagePhys f (x, y, z)) = true) ∧
      sp = mkSample E st f (x, y, z)) (sampleStratified E st f) := by
  constructor
  · simp only [sampleStratified]
    exact collectStrat_length E st f _ _ _ (Nat.zero_le _)
  · rw [List.forall_iff_forall_mem]
    intro sp hsp
    simp only [sampleStratified] at hsp
    rcases collectStrat_mem E st f _ _ _ _ hsp with h' | ⟨c, hc, hmask, hspEq⟩
    · exact absurd h' (List.not_mem_nil sp)
    · obtain ⟨z, hz, hyx⟩ := List.mem_flatMap.mp hc
      obtain ⟨y, hy, hx⟩ := List.mem_flatMap.mp hyx
      obtain ⟨x, hxm, hceq⟩ := List.mem_map.mp hx
      rw [← hceq] at hmask hspEq
      simp only [latticeAxis, List.mem_filter, List.mem_range,
        decide_eq_true_eq] at hxm hy hz
      exact ⟨x, y, z, ⟨hxm.2.1, hxm.2.2.1, hxm.2.2.2⟩,
        ⟨hy.2.1, hy.2.2.1, hy.2.2.2⟩, ⟨hz.2.1, hz.2.2.1, hz.2.2.2⟩,
        hmask, hspEq⟩

/-- C4 counterexample: the code truncates the target count where the
spec rounds it (`64 * 3/128 = 1.5` gives 1, not 2), and truncates the
cube root where the spec rounds it up (`cbrt 9 ~ 2.08` gives step 2, not
3). -/
theorem claim4_counterexample :
    targetSamplesOf 64 (3/128) = 1 ∧
    targetSamplesSpec 64 (3/128) = 2 ∧
    stratStep 9 1 = 2 ∧
    stratStepSpec 9 1 = 3 := by
  refine ⟨?_, ?_, by decide, by decide⟩
  · norm_num [targetSamplesOf]
  · norm_num [targetSamplesSpec, round_eq]
    decide

/-- The fold `maxVal = max(maxVal, val)` dominates its seed and every
list element. -/
theorem list_le_foldl_max (l : List ℝ) :
    ∀ a : ℝ, a ≤ l.foldl max a ∧ ∀ x ∈ l, x ≤ l.foldl max a := by
  induction l with
  | nil =>
      intro a
      exact ⟨le_refl a, by intro x hx; exact absurd hx (List.not_mem_nil x)⟩
  | cons y t ih =>
      intro a
      constructor
      · exact le_trans (le_max_left a y) (ih (max a y)).1
      · intro x hx
        rcases List.mem_cons.mp hx with rfl | hx'
        · exact le_trans (le_max_right a x) (ih (max a x)).1
        · exact (ih (max a y)).2 x hx'

/-- The fold `maxVal = max(maxVal, val)` is bounded by any common upper
bound of the seed and the elements. -/
theorem list_foldl_max_le (l : List ℝ) :
    ∀ a b : ℝ, a ≤ b → (∀ x ∈ l, x ≤ b) → l.foldl max a ≤ b := by
  induction l with
  | nil => intro a b hab _; exact hab
  | cons y t ih =>
      intro a b hab h
      exact ih (max a y) b (max_le hab (h y (List.mem_cons_self y t)))
        (fun x hx => h x (List.mem_cons_of_mem y hx))

/-- The fold `maxVal = max(maxVal, val)` returns the seed or an element. -/
theorem list_foldl_max_mem (l : List ℝ) :
    ∀ a : ℝ, l.foldl max a = a ∨ l.foldl max a ∈ l := by
  induction l with
  | nil => intro a; exact Or.inl rfl
  | cons y t ih =>
      intro a
      rcases ih (max a y) with h | h
      · rcases max_choice a y with h2 | h2
        · exact Or.inl (h.trans h2)
        · refine Or.inr ?_
          rw [show (y :: t).foldl max a = t.foldl max (max a y) from rfl, h, h2]
          exact List.mem_cons_self y t
      · exact Or.inr (List.mem_cons_of_mem y h)

/-- A nonempty list of rationals has a least element. -/
theorem exists_list_min : ∀ (l : List ℚ), l ≠ [] → ∃ x ∈ l, ∀ y ∈ l, x ≤ y := by
  intro l
  induction l with
  | nil => intro h; exact absurd rfl h
  | cons a t ih =>
      intro _
      by_cases ht : t = []
      · subst ht
        refine ⟨a, List.mem_cons_self a [], ?_⟩
        intro y hy
        rcases List.mem_cons.mp hy with rfl | hy'
        · exact le_refl y
        · exact absurd hy' (List.not_mem_nil y)
      · obtain ⟨x, hx, hmin⟩ := ih ht
        by_cases hax : a ≤ x
        · refine ⟨a, List.mem_cons_self a t, ?_⟩
          intro y hy
          rcases List.mem_cons.mp hy with rfl | hy'
          · exact le_refl y
          · exact le_trans hax (hmin y hy')
        · refine ⟨x, List.mem_cons_of_mem a hx, ?_⟩
          intro y hy
          rcases List.mem_cons.mp hy with rfl | hy'
          · exact le_of_not_le hax
          · exact hmin y hy'

/-- A lower bound of a list of rationals, scaled by the length, bounds
the sum. -/
theorem list_min_mul_le_sum : ∀ (l : List ℚ) (x : ℚ), (∀ y ∈ l, x ≤ y) →
    (l.length : ℚ) * x ≤ l.sum := by
  intro l
  induction l with
  | nil => intro x _; simp
  | cons a t ih =>
      intro x h
      have h1 : x ≤ a := h a (List.mem_cons_self a t)
      have h2 : (t.length : ℚ) * x ≤ t.sum :=
        ih x (fun y hy => h y (List.mem_cons_of_mem a hy))
      simp only [List.length_cons, List.sum_cons]
      push_cast
      linarith

/-- Both neighborhood systems have at least one offset. -/
theorem neighborhoodOffsetsOf_ne_nil (nt : NbhdType) :
    neighborhoodOffsetsOf nt ≠ [] := by
  cases nt <;> decide

/-- Patch distances are means of squares, hence nonnegative. -/
theorem dpImage_nonneg (v : VolumeQ) (r : ℕ) (off : ℤ × ℤ × ℤ) (i j k : ℤ) :
    0 ≤ dpImage v r off i j k := by
  unfold dpImage meanFilter
  apply div_nonneg
  · apply List.sum_nonneg
    intro a ha
    obtain ⟨di, _, rfl⟩ := List.mem_map.mp ha
    apply List.sum_nonneg
    intro b hb
    obtain ⟨dj, _, rfl⟩ := List.mem_map.mp hb
    apply List.sum_nonneg
    intro c hc
    obtain ⟨dk, _, rfl⟩ := List.mem_map.mp hc
    exact mul_self_nonneg _
  · positivity

/-- The denominator `V(x) = avgDp + 1e-10` is strictly positive. -/
theorem varianceImage_pos (v : VolumeQ) (r : ℕ) (offs : List (ℤ × ℤ × ℤ))
    (i j k : ℤ) : 0 < varianceImage v r offs i j k := by
  unfold varianceImage
  have h1 : 0 ≤ (offs.map fun o => dpImage v r o i j k).sum := by
    apply List.sum_nonneg
    intro q hq
    obtain ⟨o, _, rfl⟩ := List.mem_map.mp hq
    exact dpImage_nonneg v r o i j k
  have h2 : 0 ≤ (offs.map fun o => dpImage v r o i j k).sum / (offs.length : ℚ) :=
    div_nonneg h1 (by positivity)
  linarith

/-- C5: each stored channel is `exp(-Dp/V)` divided by the per-voxel raw
maximum plus `1e-10`, and the per-voxel maximum of the normalized channels
lies within `1e-5` of `1`. -/
theorem claim5_descriptor_normalization (v : VolumeQ) (r : ℕ) (nt : NbhdType)
    (i j k : ℤ) :
    (∀ off ∈ neighborhoodOffsetsOf nt,
      mindNormalized v r (neighborhoodOffsetsOf nt) off i j k
        = Real.exp (-(dpImage v r off i j k : ℝ)
              / (varianceImage v r (neighborhoodOffsetsOf nt) i j k : ℝ))
          / (maxMindRaw v r (neighborhoodOffsetsOf nt) i j k + 1e-10)) ∧
    |maxMindNormalized v r (neighborhoodOffsetsOf nt) i j k - 1| ≤ 1e-5 := by
  constructor
  · intro off _
    rfl
  · set offs := neighborhoodOffsetsOf nt with hoffs
    have hne : offs ≠ [] := neighborhoodOffsetsOf_ne_nil nt
    have hVq : 0 < varianceImage v r offs i j k := varianceImage_pos v r offs i j k
    have hLne : (offs.map fun o => dpImage v r o i j k) ≠ [] := by
      intro hmap
      exact hne (List.map_eq_nil_iff.mp hmap)
    obtain ⟨x, hxmem, hxmin⟩ := exists_list_min _ hLne
    obtain ⟨o0, ho0, hxo⟩ := List.mem_map.mp hxmem
    have hsum : ((offs.map fun o => dpImage v r o i j k).length : ℚ) * x
        ≤ (offs.map fun o => dpImage v r o i j k).sum :=
      list_min_mul_le_sum _ x hxmin
    have hlenpos : (0:ℚ) < (offs.length : ℚ) := by
      have hl : 0 < offs.length := List.length_pos.mpr hne
      exact_mod_cast hl
    have hxavg : x ≤ (offs.map fun o => dpImage v r o i j k).sum
        / (offs.length : ℚ) := by
      rw [le_div_iff₀ hlenpos]
      calc x * (offs.length : ℚ) = (offs.length : ℚ) * x := mul_comm _ _
        _ = ((offs.map fun o => dpImage v r o i j k).length : ℚ) * x := by
              rw [List.length_map]
        _ ≤ _ := hsum
    have hdpVar : dpImage v r o0 i j k ≤ varianceImage v r offs i j k := by
      rw [hxo]
      unfold varianceImage
      linarith
    have hVRpos : (0:ℝ) < ((varianceImage v r offs i j k : ℚ) : ℝ) := by
      exact_mod_cast hVq
    have hratio : (-1 : ℝ) ≤ -((dpImage v r o0 i j k : ℚ) : ℝ)
        / ((varianceImage v r offs i j k : ℚ) : ℝ) := by
      have hdr : ((dpImage v r o0 i j k : ℚ) : ℝ)
          / ((varianceImage v r offs i j k : ℚ) : ℝ) ≤ 1 := by
        rw [div_le_one hVRpos]
        exact_mod_cast hdpVar
      rw [neg_div]
      exact neg_le_neg hdr
    have hraw0 : Real.exp (-1) ≤ mindRaw v r offs o0 i j k := by
      unfold mindRaw
      exact Real.exp_le_exp.mpr hratio
    have hMfacts := list_le_foldl_max (offs.map fun o => mindRaw v r offs o i j k) 0
    have hrawmem : mindRaw v r offs o0 i j k
        ∈ offs.map fun o => mindRaw v r offs o i j k :=
      List.mem_map_of_mem _ ho0
    have hMge : Real.exp (-1) ≤ maxMindRaw v r offs i j k := by
      unfold maxMindRaw
      exact le_trans hraw0 (hMfacts.2 _ hrawmem)
    have hM13 : (1:ℝ)/3 < maxMindRaw v r offs i j k := by
      have hmul : Real.exp (-1) * Real.exp 1 = 1 := by
        rw [← Real.exp_add]; norm_num
      nlinarith [hmul, Real.exp_one_lt_d9, Real.exp_pos (-1), hMge]
    have hMeps : (0:ℝ) < maxMindRaw v r offs i j k + 1e-10 := by
      have heps : (0:ℝ) < 1e-10 := by norm_num
      linarith
    have hub : ∀ y ∈ offs.map fun o => mindNormalized v r offs o i j k, y ≤ 1 := by
      intro y hy
      obtain ⟨o, ho, rfl⟩ := List.mem_map.mp hy
      unfold mindNormalized
      rw [div_le_one hMeps]
      have hle : mindRaw v r offs o i j k ≤ maxMindRaw v r offs i j k := by
        unfold maxMindRaw
        exact hMfacts.2 _ (List.mem_map_of_mem _ ho)
      linarith
    have hmaxN_le : maxMindNormalized v r offs i j k ≤ 1 := by
      unfold maxMindNormalized
      exact list_foldl_max_le _ 0 1 (by norm_num) hub
    have hattain : maxMindRaw v r offs i j k
        ∈ offs.map fun o => mindRaw v r offs o i j k := by
      rcases list_foldl_max_mem (offs.map fun o => mindRaw v r offs o i j k) 0
        with h | h
      · exfalso
        have h0 : maxMindRaw v r offs i j k = 0 := h
        rw [h0] at hM13
        norm_num at hM13
      · exact h
    obtain ⟨ostar, hostar, hstar⟩ := List.mem_map.mp hattain
    have hnormstar : mindNormalized v r offs ostar i j k
        = maxMindRaw v r offs i j k / (maxMindRaw v r offs i j k + 1e-10) := by
      unfold mindNormalized
      rw [hstar]
    have hmemN : mindNormalized v r offs ostar i j k
        ∈ offs.map fun o => mindNormalized v r offs o i j k :=
      List.mem_map_of_mem _ hostar
    have hmaxN_ge' : mindNormalized v r offs ostar i j k
        ≤ maxMindNormalized v r offs i j k := by
      unfold maxMindNormalized
      exact (list_le_foldl_max _ 0).2 _ hmemN
    have hfrac : 1 - 1e-5
        ≤ maxMindRaw v r offs i j k / (maxMindRaw v r offs i j k + 1e-10) := by
      rw [le_div_iff₀ hMeps]
      nlinarith [hM13]
    have hmaxN_ge : 1 - 1e-5 ≤ maxMindNormalized v r offs i j k := by
      calc 1 - 1e-5
          ≤ maxMindRaw v r offs i j k / (maxMindRaw v r offs i j k + 1e-10) :=
            hfrac
        _ = mindNormalized v r offs ostar i j k := hnormstar.symm
        _ ≤ maxMindNormalized v r offs i j k := hmaxN_ge'
    rw [abs_le]
    constructor
    · linarith
    · linarith

end TMJ
